import Mathlib

/-!
Shallow embedding of the game-server core (`src/server.js`) of a grid-based
multiplayer bomb game.  JavaScript objects keyed by string identifiers are
modelled as Lean lists kept in insertion order (for-in over non-index string
keys iterates in insertion order); `Date.now()` and `Math.random()` are
modelled as explicit parameters (`now : Int`, oracles for soft-block and
power-up randomness).  The recursive `createExplosion` is embedded with an
explicit fuel parameter, returning `none` when the fuel is exhausted.
-/

namespace BombGame

/-- Constant `GRID_WIDTH` from server.js. -/
def GRID_WIDTH : Int := 21

/-- Constant `GRID_HEIGHT` from server.js. -/
def GRID_HEIGHT : Int := 21

/-- Constant `BOMB_TIMER` from server.js (ms). -/
def BOMB_TIMER : Int := 3000

/-- Constant `EXPLOSION_DURATION` from server.js (ms). -/
def EXPLOSION_DURATION : Int := 3000

/-- The tile kinds `TILE = { EMPTY: 0, SOLID: 1, SOFT: 2 }`. -/
inductive Tile
  | empty
  | solid
  | soft
deriving DecidableEq

/-- The power-up kinds `POWER_UP_TYPES` from server.js. -/
inductive PowerUpType
  | speed
  | bomb_count
  | bomb_range
deriving DecidableEq

/-- The fixed corner spawn slots `PLAYER_SPAWNS` (with GRID_WIDTH-2 = 19). -/
def PLAYER_SPAWNS : List (Int × Int) := [(1, 1), (19, 19), (19, 1), (1, 19)]

/-- The 17 entries of `PLAYER_COLORS`. -/
def PLAYER_COLORS : List String :=
  ["#2ECC40", "#FF4136", "#0074D9", "#FFDC00", "#FF851B", "#7FDBFF", "#B10DC9", "#F012BE",
   "#3D9970", "#85144b", "#39CCCC", "#01FF70", "#AAAAAA", "#DDDDDD", "#FFFFFF", "#111111",
   "#E6E6FA"]

/-- A player entity (see `addPlayer` in server.js for the field defaults). -/
structure Player where
  id : String
  nickname : String
  x : Int
  y : Int
  color : String
  isAlive : Bool
  bombsMax : Int
  bombsPlaced : Int
  explosionRadius : Int
  speed : Rat
  direction : String
deriving DecidableEq

/-- A bomb entity (see `placeBomb`): the `radius` field is copied from the
owner's `explosionRadius` at placement time. -/
structure Bomb where
  id : String
  x : Int
  y : Int
  ownerId : String
  timer : Int
  radius : Int
deriving DecidableEq

/-- An explosion entity: a tile set (object keys in the source, a duplicate-free
list here) and a creation timestamp. -/
structure Explosion where
  id : String
  tiles : List (Int × Int)
  createdAt : Int
deriving DecidableEq

/-- A power-up entity; its id is the string `powerup-x-y` derived from its
coordinates (see `trySpawnPowerUp`). -/
structure PowerUp where
  id : String
  x : Int
  y : Int
  type : PowerUpType
deriving DecidableEq

/-- The snapshot sent by `getStateForClient`. -/
structure ClientState where
  players : List Player
  bombs : List Bomb
  explosions : List Explosion
  grid : List (List Tile)
  powerUps : List PowerUp
  winner : Option String
deriving DecidableEq

/-- The diff events produced by `queueUpdate` calls in server.js. -/
inductive Diff
  | fullState (snapshot : ClientState)
  | playerJoined (p : Player)
  | playerLeft (id : String)
  | playerMoved (id : String) (x y : Int) (direction : String)
  | playerFaced (id : String) (direction : String)
  | bombPlaced (b : Bomb)
  | explosion (e : Explosion)
  | tileChanged (x y : Int) (t : Tile)
  | powerUpSpawned (p : PowerUp)
  | powerUpCollected (id : String) (playerId : String)
  | playerDied (id : String)
  | gameOver (winner : String)
  | countdown (value : Int)
deriving DecidableEq

/-- The mutable `GameState` aggregate of server.js.  The string-keyed object
collections are lists in insertion order; every entity carries its own key. -/
structure GameState where
  players : List Player
  bombs : List Bomb
  explosions : List Explosion
  powerUps : List PowerUp
  grid : List (List Tile)
  winner : Option String
  isGameOver : Bool
  diffs : List Diff
deriving DecidableEq

/-- The state built by the `GameState` constructor. -/
def GameState.new : GameState :=
  { players := [], bombs := [], explosions := [], powerUps := [], grid := [],
    winner := none, isGameOver := false, diffs := [] }

/-- `queueUpdate(type, data)`: push a diff event. -/
def queueUpdate (s : GameState) (d : Diff) : GameState :=
  { s with diffs := s.diffs ++ [d] }

/-- Read `grid[y][x]` (all source accesses are bounds-checked first, so the
defaults are never observed in faithful use). -/
def getCell (g : List (List Tile)) (x y : Int) : Tile :=
  (g.getD y.toNat []).getD x.toNat Tile.solid

/-- Write `grid[y][x] = t`. -/
def setCell (g : List (List Tile)) (x y : Int) (t : Tile) : List (List Tile) :=
  g.set y.toNat ((g.getD y.toNat []).set x.toNat t)

/-- Mutate the player object stored under `id` (JS objects hold at most one
entry per key; ids are unique in all reachable states). -/
def updatePlayer (s : GameState) (id : String) (f : Player → Player) : GameState :=
  { s with players := s.players.map (fun p => if p.id == id then f p else p) }

/-- JS property assignment `obj[key] = v` on a string-keyed object: replace in
place when the key exists, append otherwise. -/
def putBy {α : Type} (key : α → String) (l : List α) (a : α) : List α :=
  if l.any (fun b => key b == key a) then
    l.map (fun b => if key b == key a then a else b)
  else l ++ [a]

/-- The cell (x, y) of the "inverted map" built by pass 1 of `initializeGrid`:
border cells SOLID; inside, even-even cells ("old pillars") EMPTY and all other
cells SOLID. -/
def baseTile (x y : Int) : Tile :=
  if y = 0 ∨ y = GRID_HEIGHT - 1 ∨ x = 0 ∨ x = GRID_WIDTH - 1 then Tile.solid
  else if x % 2 = 0 ∧ y % 2 = 0 then Tile.empty
  else Tile.solid

/-- Pass 2 of `initializeGrid`: the cells pushed onto `spawnZones` — the 3×3
neighborhood of each `PLAYER_SPAWNS` entry, minus out-of-bounds and border
cells. -/
def spawnZones : List (Int × Int) :=
  PLAYER_SPAWNS.flatMap (fun s =>
    ([-1, 0, 1] : List Int).flatMap (fun dy =>
      ([-1, 0, 1] : List Int).filterMap (fun dx =>
        let sx := s.1 + dx
        let sy := s.2 + dy
        if 0 ≤ sx ∧ sx < GRID_WIDTH ∧ 0 ≤ sy ∧ sy < GRID_HEIGHT ∧
           sx ≠ 0 ∧ sx ≠ GRID_WIDTH - 1 ∧ sy ≠ 0 ∧ sy ≠ GRID_HEIGHT - 1 then
          some (sx, sy)
        else none)))

/-- The final tile produced for (x, y) by the three passes of `initializeGrid`:
pass 1 (`baseTile`), pass 2 (spawn zones forced EMPTY), pass 3 (each interior
EMPTY cell outside the spawn zones becomes SOFT when the random draw
`Math.random() < 0.75` — here the oracle `rand` — says so).  Pass 3 reads the
grid as left by pass 2, which is exactly `afterClear`. -/
def genTile (rand : Int → Int → Bool) (x y : Int) : Tile :=
  if 1 ≤ x ∧ x ≤ GRID_WIDTH - 2 ∧ 1 ≤ y ∧ y ≤ GRID_HEIGHT - 2 ∧
     (if (x, y) ∈ spawnZones then Tile.empty else baseTile x y) = Tile.empty ∧
     (x, y) ∉ spawnZones ∧ rand x y then
    Tile.soft
  else if (x, y) ∈ spawnZones then Tile.empty else baseTile x y

/-- `initializeGrid` with the soft-block randomness supplied per cell by
`rand`. -/
def initializeGrid (rand : Int → Int → Bool) : List (List Tile) :=
  (List.range 21).map (fun (y : Nat) =>
    (List.range 21).map (fun (x : Nat) => genTile rand (x : Int) (y : Int)))

/-- `isPassable(x, y)`: in bounds, not SOLID/SOFT, and no live bomb there. -/
def isPassable (s : GameState) (x y : Int) : Bool :=
  if x < 0 ∨ GRID_WIDTH ≤ x ∨ y < 0 ∨ GRID_HEIGHT ≤ y then false
  else if getCell s.grid x y = Tile.solid ∨ getCell s.grid x y = Tile.soft then false
  else !(s.bombs.any (fun b => b.x == x && b.y == y))

/-- The id string `powerup-x-y` used by `trySpawnPowerUp`. -/
def powerUpId (x y : Int) : String :=
  "powerup-" ++ toString x ++ "-" ++ toString y

/-- `trySpawnPowerUp(x, y)` with the random draws replaced by the oracle
`spawnO`: `none` models `Math.random() >= POWER_UP_SPAWN_CHANCE`, and
`some ty` models a successful draw picking the type `ty`. -/
def trySpawnPowerUp (spawnO : Int → Int → Option PowerUpType) (s : GameState)
    (x y : Int) : GameState :=
  match spawnO x y with
  | none => s
  | some ty =>
    let pu : PowerUp := { id := powerUpId x y, x := x, y := y, type := ty }
    queueUpdate { s with powerUps := putBy PowerUp.id s.powerUps pu }
      (Diff.powerUpSpawned pu)

/-- The per-type effect switch of `checkPowerUpCollision`: speed is an
additive bonus capped at 3, the other two increment a counter. -/
def applyPowerUp (ty : PowerUpType) (p : Player) : Player :=
  match ty with
  | PowerUpType.speed => { p with speed := min (p.speed + (1 : Rat) / 2) 3 }
  | PowerUpType.bomb_count => { p with bombsMax := p.bombsMax + 1 }
  | PowerUpType.bomb_range => { p with explosionRadius := p.explosionRadius + 1 }

/-- `checkPowerUpCollision(playerId)`: first power-up (in key insertion order)
at the player's cell is applied and deleted. -/
def checkPowerUpCollision (s : GameState) (playerId : String) : GameState :=
  match s.players.find? (fun p => p.id == playerId) with
  | none => s
  | some player =>
    match s.powerUps.find? (fun q => q.x == player.x && q.y == player.y) with
    | none => s
    | some powerUp =>
      let s1 := updatePlayer s playerId (applyPowerUp powerUp.type)
      let s2 := { s1 with powerUps := s1.powerUps.eraseP (fun q => q.id == powerUp.id) }
      queueUpdate s2 (Diff.powerUpCollected powerUp.id playerId)

/-- The `switch (direction)` of `movePlayer`: a unit step for the four
cardinal strings, and a fall-through (no case matches) leaving the
coordinates unchanged for any other string. -/
def dirStep (x y : Int) (direction : String) : Int × Int :=
  if direction == "up" then (x, y - 1)
  else if direction == "down" then (x, y + 1)
  else if direction == "left" then (x - 1, y)
  else if direction == "right" then (x + 1, y)
  else (x, y)

/-- `movePlayer(id, direction)`.  The facing is set before (and regardless of)
the passability check; the switch falls through for non-cardinal direction
strings, leaving the target equal to the current cell. -/
def movePlayer (s : GameState) (id direction : String) : GameState :=
  if s.isGameOver then s
  else
    match s.players.find? (fun p => p.id == id) with
    | none => s
    | some player =>
      if !player.isAlive then s
      else
        let s1 := updatePlayer s id (fun p => { p with direction := direction })
        let nxy : Int × Int := dirStep player.x player.y direction
        if isPassable s1 nxy.1 nxy.2 then
          let s2 := updatePlayer s1 id (fun p => { p with x := nxy.1, y := nxy.2 })
          let s3 := queueUpdate s2 (Diff.playerMoved id nxy.1 nxy.2 direction)
          checkPowerUpCollision s3 id
        else queueUpdate s1 (Diff.playerFaced id direction)

/-- The bomb object built by `placeBomb`: id `playerId-now`, placed at the
player's cell, deadline `now + BOMB_TIMER`, radius captured by value from the
owner's current `explosionRadius`. -/
def placedBombOf (playerId : String) (now : Int) (player : Player) : Bomb :=
  { id := playerId ++ "-" ++ toString now, x := player.x, y := player.y,
    ownerId := playerId, timer := now + BOMB_TIMER,
    radius := player.explosionRadius }

/-- `placeBomb(playerId)` at wall-clock time `now`. -/
def placeBomb (s : GameState) (playerId : String) (now : Int) : GameState :=
  if s.isGameOver then s
  else
    match s.players.find? (fun p => p.id == playerId) with
    | none => s
    | some player =>
      if !player.isAlive || player.bombsMax ≤ player.bombsPlaced then s
      else
        let bomb := placedBombOf playerId now player
        let s1 := { s with bombs := putBy Bomb.id s.bombs bomb }
        let s2 := updatePlayer s1 playerId (fun p =>
          { p with bombsPlaced := p.bombsPlaced + 1 })
        queueUpdate s2 (Diff.bombPlaced bomb)

/-- The direction list of `createExplosion`:
`[{dx:0,dy:1},{dx:0,dy:-1},{dx:1,dy:0},{dx:-1,dy:0}]`. -/
def DIRECTIONS : List (Int × Int) := [(0, 1), (0, -1), (1, 0), (-1, 0)]

/-- `explosion.tiles[key] = true`: insert a coordinate into the tile set,
keeping at most one occurrence per key. -/
def addTile (ts : List (Int × Int)) (c : Int × Int) : List (Int × Int) :=
  if c ∈ ts then ts else ts ++ [c]

/-- The inner `for (const bombId in this.bombs)` loop of `createExplosion` at
the walk cell (cx, cy): iterate over the key snapshot `keys`, skipping keys no
longer present; on a positional match, first recursively detonate the bomb
(via `recur`, the fuel-decremented `createExplosion`) and only afterwards
delete it from the bomb set — exactly the source's statement order. -/
def bombScan (recur : GameState → Int → Int → String → Int → Option GameState) :
    List String → GameState → Int → Int → Option GameState
  | [], st, _, _ => some st
  | k :: ks, st, cx, cy =>
    match st.bombs.find? (fun b => b.id == k) with
    | none => bombScan recur ks st cx cy
    | some b =>
      if b.x == cx && b.y == cy then
        match recur st b.x b.y b.ownerId b.radius with
        | none => none
        | some st2 =>
          bombScan recur ks
            { st2 with bombs := st2.bombs.eraseP (fun bb => bb.id == k) } cx cy
      else bombScan recur ks st cx cy

/-- One direction of the outward walk of `createExplosion` (the inner
`for (let i = 1; i <= radius; i++)` loop): `rem` is the number of remaining
steps and (px, py) the previously visited cell.  Per step: bounds check, stop
on SOLID (tile value captured before the bomb scan), add the tile, run the
bomb chain scan, then convert a SOFT tile (on the post-scan state) and stop,
or continue on EMPTY. -/
def walkDir (recur : GameState → Int → Int → String → Int → Option GameState)
    (spawnO : Int → Int → Option PowerUpType) (dx dy : Int) :
    Nat → Int → Int → GameState → List (Int × Int) →
    Option (GameState × List (Int × Int))
  | 0, _, _, st, ts => some (st, ts)
  | rem + 1, px, py, st, ts =>
    let nx := px + dx
    let ny := py + dy
    if nx < 0 ∨ GRID_WIDTH ≤ nx ∨ ny < 0 ∨ GRID_HEIGHT ≤ ny then some (st, ts)
    else
      let tile := getCell st.grid nx ny
      if tile = Tile.solid then some (st, ts)
      else
        let ts2 := addTile ts (nx, ny)
        match bombScan recur (st.bombs.map (fun b => b.id)) st nx ny with
        | none => none
        | some st2 =>
          if tile = Tile.soft then
            let st3 := queueUpdate { st2 with grid := setCell st2.grid nx ny Tile.empty }
              (Diff.tileChanged nx ny Tile.empty)
            some (trySpawnPowerUp spawnO st3 nx ny, ts2)
          else walkDir recur spawnO dx dy rem nx ny st2 ts2

/-- The outer direction loop of `createExplosion`. -/
def walkDirs (recur : GameState → Int → Int → String → Int → Option GameState)
    (spawnO : Int → Int → Option PowerUpType) (radius : Nat) (ox oy : Int) :
    List (Int × Int) → GameState → List (Int × Int) →
    Option (GameState × List (Int × Int))
  | [], st, ts => some (st, ts)
  | d :: ds, st, ts =>
    match walkDir recur spawnO d.1 d.2 radius ox oy st ts with
    | none => none
    | some (st2, ts2) => walkDirs recur spawnO radius ox oy ds st2 ts2

/-- The explosion record built by `createExplosion`: id `x,y-now`, the
accumulated tile set, and the creation timestamp. -/
def explosionOf (x y now : Int) (tiles : List (Int × Int)) : Explosion :=
  { id := toString x ++ "," ++ toString y ++ "-" ++ toString now,
    tiles := tiles, createdAt := now }

/-- `createExplosion(x, y, ownerId, radius)` with fuel (the source recursion
has no termination guarantee; `none` means the fuel ran out).  The tile set
starts at the origin; after the four walks the explosion is registered with an
`explosion` diff, and the owner's `bombsPlaced` is decremented when the owner
is still registered (alive or dead). -/
def createExplosion (spawnO : Int → Int → Option PowerUpType) :
    Nat → GameState → Int → Int → String → Int → Int → Option GameState
  | 0, _, _, _, _, _, _ => none
  | fuel + 1, s, x, y, ownerId, radius, now =>
    match walkDirs (fun st bx b_y o r => createExplosion spawnO fuel st bx b_y o r now)
        spawnO radius.toNat x y DIRECTIONS s [(x, y)] with
    | none => none
    | some (st, tiles) =>
      let explosion := explosionOf x y now tiles
      let st2 := queueUpdate { st with explosions := putBy Explosion.id st.explosions explosion }
        (Diff.explosion explosion)
      some (match st2.players.find? (fun p => p.id == ownerId) with
        | none => st2
        | some _ => updatePlayer st2 ownerId (fun p =>
            { p with bombsPlaced := p.bombsPlaced - 1 }))

/-- The `explodedBombs.forEach(...)` pass of `updateBombs`. -/
def detonateList (spawnO : Int → Int → Option PowerUpType) (fuel : Nat) (now : Int) :
    List Bomb → GameState → Option GameState
  | [], st => some st
  | b :: bs, st =>
    match createExplosion spawnO fuel st b.x b.y b.ownerId b.radius now with
    | none => none
    | some st2 => detonateList spawnO fuel now bs st2

/-- `updateBombs()`: collect and delete every bomb whose deadline has elapsed,
then detonate them in insertion order. -/
def updateBombs (spawnO : Int → Int → Option PowerUpType) (fuel : Nat) (now : Int)
    (s : GameState) : Option GameState :=
  let exploded := s.bombs.filter (fun b => b.timer ≤ now)
  detonateList spawnO fuel now exploded
    { s with bombs := s.bombs.filter (fun b => !(b.timer ≤ now)) }

/-- The death-marking pass of `updateExplosions`: for each player (skipped when
already dead at the start of its scan), every live explosion whose tile set
contains the player's cell kills it and queues a `playerDied` diff (one diff
per matching explosion, as in the source's unbroken inner loop). -/
def applyExplosionDeaths (s : GameState) : GameState :=
  (s.players.map (fun p => p.id)).foldl (fun st pid =>
    match st.players.find? (fun p => p.id == pid) with
    | none => st
    | some p =>
      if !p.isAlive then st
      else
        st.explosions.foldl (fun st2 e =>
          if (p.x, p.y) ∈ e.tiles then
            queueUpdate (updatePlayer st2 pid (fun q => { q with isAlive := false }))
              (Diff.playerDied pid)
          else st2) st) s

/-- `updateExplosions()`: kill players standing in explosion tiles, then drop
explosions older than `EXPLOSION_DURATION`. -/
def updateExplosions (now : Int) (s : GameState) : GameState :=
  let s1 := applyExplosionDeaths s
  { s1 with explosions :=
      s1.explosions.filter (fun e => !(e.createdAt + EXPLOSION_DURATION ≤ now)) }

/-- `checkForWinner()`: when the round is active, at least 2 players are
registered and at most 1 is alive, end the round with the sole survivor's
nickname (or "Draw!") and queue a `gameOver` diff.  The delayed `startRound`
timer is transport-side and out of the core model. -/
def checkForWinner (s : GameState) : GameState :=
  if s.isGameOver then s
  else
    let alivePlayers := s.players.filter (fun p => p.isAlive)
    if 2 ≤ s.players.length ∧ alivePlayers.length ≤ 1 then
      let winner := match alivePlayers with
        | [p] => p.nickname
        | _ => "Draw!"
      queueUpdate { s with isGameOver := true, winner := some winner }
        (Diff.gameOver winner)
    else s

/-- `getStateForClient()`. -/
def getStateForClient (s : GameState) : ClientState :=
  { players := s.players, bombs := s.bombs, explosions := s.explosions,
    grid := s.grid, powerUps := s.powerUps, winner := s.winner }

/-- Squared Euclidean distance; `Math.hypot` is strictly monotone in it, so
all the strict comparisons of `findSpawnPoint` are preserved. -/
def distSq (x1 y1 x2 y2 : Int) : Int :=
  (x1 - x2) * (x1 - x2) + (y1 - y2) * (y1 - y2)

/-- `minDistToPlayer` of `findSpawnPoint` (squared); only used with a nonempty
player list, where the `Infinity` start value is immediately replaced. -/
def minDistSqToPlayers (ps : List Player) (x y : Int) : Int :=
  match ps with
  | [] => 0
  | p :: rest => rest.foldl (fun m q => min m (distSq x y q.x q.y)) (distSq x y p.x p.y)

/-- The interior cells in the row-major order scanned by `findSpawnPoint`
(y outer from 1 to 19, x inner from 1 to 19). -/
def spawnCells : List (Int × Int) :=
  (List.range' 1 19).flatMap (fun (y : Nat) =>
    (List.range' 1 19).map (fun (x : Nat) => ((x : Int), (y : Int))))

/-- The scan loop of `findSpawnPoint`: over each EMPTY cell, return it at once
when the player collection is empty, otherwise keep the cell whose minimum
(squared) distance to the players strictly exceeds the best so far. -/
def findSpawnAux (s : GameState) :
    List (Int × Int) → Int × Int → Int → Int × Int
  | [], best, _ => best
  | c :: cs, best, maxDist =>
    if getCell s.grid c.1 c.2 = Tile.empty then
      if s.players.isEmpty then c
      else
        let minD := minDistSqToPlayers s.players c.1 c.2
        if maxDist < minD then findSpawnAux s cs c minD
        else findSpawnAux s cs best maxDist
    else findSpawnAux s cs best maxDist

/-- `findSpawnPoint(playerIndex)`: fixed corner slots for the first four
indices, then the farthest-point scan (note: over `Object.values(this.players)`
— every registered player, dead or alive). -/
def findSpawnPoint (s : GameState) (playerIndex : Nat) : Int × Int :=
  if playerIndex < 4 then PLAYER_SPAWNS.getD playerIndex (0, 0)
  else findSpawnAux s spawnCells (-1, -1) (-1)

/-- `addPlayer(id, nickname)`: reject at 17 players, otherwise spawn and
register a new default-stats player (the `nickname || default` JS test treats
the empty string as falsy). -/
def addPlayer (s : GameState) (id : String) (nickname : Option String) :
    GameState × Option Player :=
  let playerCount := s.players.length
  if 17 ≤ playerCount then (s, none)
  else
    let spawn := findSpawnPoint s playerCount
    let nick := match nickname with
      | some n => if n == "" then "Player " ++ toString (playerCount + 1) else n
      | none => "Player " ++ toString (playerCount + 1)
    let player : Player :=
      { id := id, nickname := nick, x := spawn.1, y := spawn.2,
        color := PLAYER_COLORS.getD (playerCount % PLAYER_COLORS.length) "",
        isAlive := true, bombsMax := 1, bombsPlaced := 0, explosionRadius := 2,
        speed := 1, direction := "down" }
    (queueUpdate { s with players := putBy Player.id s.players player }
      (Diff.playerJoined player), some player)

/-- `removePlayer(id)`. -/
def removePlayer (s : GameState) (id : String) : GameState :=
  queueUpdate { s with players := s.players.eraseP (fun p => p.id == id) }
    (Diff.playerLeft id)

/-- The respawn pass of `reset()`: re-add each connected player with default
stats at a freshly allocated spawn (the spawn scan sees the players re-added
so far, as in the source's `forEach` over the growing `this.players`). -/
def respawnPlayers : List (Nat × Player) → GameState → GameState
  | [], st => st
  | (i, p) :: rest, st =>
    let spawn := findSpawnPoint st i
    respawnPlayers rest
      { st with players := st.players ++
          [{ p with
             x := spawn.1
             y := spawn.2
             isAlive := true
             bombsMax := 1
             bombsPlaced := 0
             explosionRadius := 2
             speed := 1
             direction := "down" }] }

/-- `reset()`: pause the game, clear the collections, regenerate the grid,
respawn the connected players and queue a `fullState` diff. -/
def reset (rand : Int → Int → Bool) (s : GameState) : GameState :=
  let base : GameState :=
    { s with
      isGameOver := true
      winner := none
      bombs := []
      explosions := []
      powerUps := []
      grid := initializeGrid rand }
  let s2 := respawnPlayers base.players.enum { base with players := [] }
  queueUpdate s2 (Diff.fullState (getStateForClient s2))

/-- One `gameLoop()` tick (without the transport flush): no-op when the game
is over, otherwise bombs, explosions, then win detection — so a decisive death
registered by `updateExplosions` is seen by `checkForWinner` in the same
tick. -/
def gameLoop (spawnO : Int → Int → Option PowerUpType) (fuel : Nat) (now : Int)
    (s : GameState) : Option GameState :=
  if s.isGameOver then some s
  else
    match updateBombs spawnO fuel now s with
    | none => none
    | some s1 => some (checkForWinner (updateExplosions now s1))

/-! ### Basic lemmas about the state operations -/

@[simp]
theorem queueUpdate_players (s : GameState) (d : Diff) :
    (queueUpdate s d).players = s.players := rfl

@[simp]
theorem queueUpdate_bombs (s : GameState) (d : Diff) :
    (queueUpdate s d).bombs = s.bombs := rfl

@[simp]
theorem queueUpdate_grid (s : GameState) (d : Diff) :
    (queueUpdate s d).grid = s.grid := rfl

@[simp]
theorem queueUpdate_isGameOver (s : GameState) (d : Diff) :
    (queueUpdate s d).isGameOver = s.isGameOver := rfl

@[simp]
theorem queueUpdate_winner (s : GameState) (d : Diff) :
    (queueUpdate s d).winner = s.winner := rfl

@[simp]
theorem queueUpdate_powerUps (s : GameState) (d : Diff) :
    (queueUpdate s d).powerUps = s.powerUps := rfl

@[simp]
theorem queueUpdate_explosions (s : GameState) (d : Diff) :
    (queueUpdate s d).explosions = s.explosions := rfl

@[simp]
theorem queueUpdate_diffs (s : GameState) (d : Diff) :
    (queueUpdate s d).diffs = s.diffs ++ [d] := rfl

@[simp]
theorem updatePlayer_bombs (s : GameState) (id : String) (f : Player → Player) :
    (updatePlayer s id f).bombs = s.bombs := rfl

@[simp]
theorem updatePlayer_grid (s : GameState) (id : String) (f : Player → Player) :
    (updatePlayer s id f).grid = s.grid := rfl

@[simp]
theorem updatePlayer_diffs (s : GameState) (id : String) (f : Player → Player) :
    (updatePlayer s id f).diffs = s.diffs := rfl

@[simp]
theorem updatePlayer_isGameOver (s : GameState) (id : String) (f : Player → Player) :
    (updatePlayer s id f).isGameOver = s.isGameOver := rfl

@[simp]
theorem updatePlayer_winner (s : GameState) (id : String) (f : Player → Player) :
    (updatePlayer s id f).winner = s.winner := rfl

@[simp]
theorem updatePlayer_powerUps (s : GameState) (id : String) (f : Player → Player) :
    (updatePlayer s id f).powerUps = s.powerUps := rfl

@[simp]
theorem updatePlayer_explosions (s : GameState) (id : String) (f : Player → Player) :
    (updatePlayer s id f).explosions = s.explosions := rfl

@[simp]
theorem isPassable_updatePlayer (s : GameState) (id : String) (f : Player → Player)
    (x y : Int) : isPassable (updatePlayer s id f) x y = isPassable s x y := rfl

/-- `find?` on the mapped player list of `updatePlayer`, for an id-preserving
mutation. -/
theorem find?_map_update (l : List Player) (id : String) (f : Player → Player)
    (hf : ∀ p, (f p).id = p.id) :
    (l.map (fun p => if p.id == id then f p else p)).find? (fun p => p.id == id) =
      (l.find? (fun p => p.id == id)).map f := by
  induction l with
  | nil => rfl
  | cons p t ih =>
    simp only [List.map_cons, List.find?_cons]
    by_cases h : (p.id == id) = true
    · have h2 : ((f p).id == id) = true := by rw [hf]; exact h
      rw [if_pos h, h2, h]
      rfl
    · have h2 : (p.id == id) = false := eq_false_of_ne_true h
      rw [if_neg h, h2]
      exact ih

theorem updatePlayer_find (s : GameState) (id : String) (f : Player → Player)
    (hf : ∀ p, (f p).id = p.id) :
    (updatePlayer s id f).players.find? (fun p => p.id == id) =
      (s.players.find? (fun p => p.id == id)).map f :=
  find?_map_update s.players id f hf

/-- The players component of `checkPowerUpCollision` is an id-, position- and
facing-preserving per-player mutation; every other component except the
power-up list and the diff log is untouched. -/
theorem checkPowerUpCollision_players_shape (s : GameState) (pid : String) :
    ∃ f : Player → Player,
      (∀ p, (f p).id = p.id ∧ (f p).x = p.x ∧ (f p).y = p.y ∧
        (f p).direction = p.direction ∧ (f p).isAlive = p.isAlive) ∧
      (checkPowerUpCollision s pid).players =
        s.players.map (fun p => if p.id == pid then f p else p) := by
  unfold checkPowerUpCollision
  split
  · exact ⟨fun p => p, by simp, by simp⟩
  · split
    · exact ⟨fun p => p, by simp, by simp⟩
    · rename_i player hp powerUp hq
      refine ⟨applyPowerUp powerUp.type, ?_, rfl⟩
      intro p
      cases powerUp.type <;> simp [applyPowerUp]

@[simp]
theorem checkPowerUpCollision_bombs (s : GameState) (pid : String) :
    (checkPowerUpCollision s pid).bombs = s.bombs := by
  unfold checkPowerUpCollision
  split
  · rfl
  · split <;> rfl

@[simp]
theorem checkPowerUpCollision_grid (s : GameState) (pid : String) :
    (checkPowerUpCollision s pid).grid = s.grid := by
  unfold checkPowerUpCollision
  split
  · rfl
  · split <;> rfl

@[simp]
theorem checkPowerUpCollision_isGameOver (s : GameState) (pid : String) :
    (checkPowerUpCollision s pid).isGameOver = s.isGameOver := by
  unfold checkPowerUpCollision
  split
  · rfl
  · split <;> rfl

/-! ### C5: movement against terrain, bombs and bounds -/

/-- Characterization of `movePlayer` for an alive player in an active round
(any direction string): blocked moves keep the coordinates and emit only a
`playerFaced` diff; passable moves set the coordinates to the target cell. -/
theorem movePlayer_characterization (s : GameState) (id direction : String) (player : Player)
    (hGO : s.isGameOver = false)
    (hfind : s.players.find? (fun p => p.id == id) = some player)
    (halive : player.isAlive = true) :
    (isPassable s (dirStep player.x player.y direction).1
        (dirStep player.x player.y direction).2 = false →
      ((movePlayer s id direction).players.find? (fun p => p.id == id)).map Player.x =
        some player.x ∧
      ((movePlayer s id direction).players.find? (fun p => p.id == id)).map Player.y =
        some player.y ∧
      ((movePlayer s id direction).players.find? (fun p => p.id == id)).map Player.direction =
        some direction ∧
      (movePlayer s id direction).diffs = s.diffs ++ [Diff.playerFaced id direction]) ∧
    (isPassable s (dirStep player.x player.y direction).1
        (dirStep player.x player.y direction).2 = true →
      ((movePlayer s id direction).players.find? (fun p => p.id == id)).map Player.x =
        some (dirStep player.x player.y direction).1 ∧
      ((movePlayer s id direction).players.find? (fun p => p.id == id)).map Player.y =
        some (dirStep player.x player.y direction).2 ∧
      ((movePlayer s id direction).players.find? (fun p => p.id == id)).map Player.direction =
        some direction) := by
  constructor
  · intro hblock
    have hr : movePlayer s id direction =
        queueUpdate (updatePlayer s id (fun p => { p with direction := direction }))
          (Diff.playerFaced id direction) := by
      simp only [movePlayer, hGO, hfind, halive, Bool.not_true, Bool.false_eq_true,
        if_false, isPassable_updatePlayer, hblock]
    have hfind1 : (updatePlayer s id (fun p => { p with direction := direction })).players.find?
        (fun p => p.id == id) = some { player with direction := direction } := by
      rw [updatePlayer_find s id (fun p => { p with direction := direction })
        (fun p => rfl), hfind]; rfl
    rw [hr]
    exact ⟨by simp [hfind1], by simp [hfind1], by simp [hfind1], by simp⟩
  · intro hpass
    have hr : movePlayer s id direction =
        checkPowerUpCollision
          (queueUpdate
            (updatePlayer (updatePlayer s id (fun p => { p with direction := direction })) id
              (fun p => { p with x := (dirStep player.x player.y direction).1,
                                 y := (dirStep player.x player.y direction).2 }))
            (Diff.playerMoved id (dirStep player.x player.y direction).1
              (dirStep player.x player.y direction).2 direction)) id := by
      simp only [movePlayer, hGO, hfind, halive, Bool.not_true, Bool.false_eq_true,
        if_false, isPassable_updatePlayer, hpass, if_true]
    obtain ⟨f3, hf3, hps⟩ := checkPowerUpCollision_players_shape
      (queueUpdate
        (updatePlayer (updatePlayer s id (fun p => { p with direction := direction })) id
          (fun p => { p with x := (dirStep player.x player.y direction).1,
                             y := (dirStep player.x player.y direction).2 }))
        (Diff.playerMoved id (dirStep player.x player.y direction).1
          (dirStep player.x player.y direction).2 direction)) id
    have hfind2 : (updatePlayer (updatePlayer s id (fun p => { p with direction := direction })) id
        (fun p => { p with x := (dirStep player.x player.y direction).1,
                           y := (dirStep player.x player.y direction).2 })).players.find?
        (fun p => p.id == id) =
        some { player with direction := direction,
                           x := (dirStep player.x player.y direction).1,
                           y := (dirStep player.x player.y direction).2 } := by
      rw [updatePlayer_find _ id
        (fun p => { p with x := (dirStep player.x player.y direction).1,
                           y := (dirStep player.x player.y direction).2 }) (fun p => rfl),
        updatePlayer_find s id (fun p => { p with direction := direction })
          (fun p => rfl), hfind]; rfl
    have hfind3 : (movePlayer s id direction).players.find? (fun p => p.id == id) =
        some (f3 { player with direction := direction,
                               x := (dirStep player.x player.y direction).1,
                               y := (dirStep player.x player.y direction).2 }) := by
      rw [hr, hps]
      rw [find?_map_update _ id f3 (fun p => (hf3 p).1)]
      simp only [queueUpdate_players, hfind2, Option.map_some']
    refine ⟨?_, ?_, ?_⟩ <;> rw [hfind3] <;> simp [(hf3 _).2.1, (hf3 _).2.2.1, (hf3 _).2.2.2.1]

/-- Claim C5: for every alive player in an active round and every cardinal
direction, a move whose target cell is out of bounds, SOLID, SOFT, or occupied
by a live bomb (i.e. not passable) leaves the player's coordinates unchanged
while still updating the facing to the requested direction and emitting a
direction-only `playerFaced` diff; a move onto a passable cell updates the
coordinates to the target cell (with the facing updated as well). -/
theorem c5_movement (s : GameState) (id direction : String) (player : Player)
    (hGO : s.isGameOver = false)
    (hfind : s.players.find? (fun p => p.id == id) = some player)
    (halive : player.isAlive = true)
    (_hdir : direction = "up" ∨ direction = "down" ∨ direction = "left" ∨
      direction = "right") :
    (isPassable s (dirStep player.x player.y direction).1
        (dirStep player.x player.y direction).2 = false →
      ((movePlayer s id direction).players.find? (fun p => p.id == id)).map Player.x =
        some player.x ∧
      ((movePlayer s id direction).players.find? (fun p => p.id == id)).map Player.y =
        some player.y ∧
      ((movePlayer s id direction).players.find? (fun p => p.id == id)).map Player.direction =
        some direction ∧
      (movePlayer s id direction).diffs = s.diffs ++ [Diff.playerFaced id direction]) ∧
    (isPassable s (dirStep player.x player.y direction).1
        (dirStep player.x player.y direction).2 = true →
      ((movePlayer s id direction).players.find? (fun p => p.id == id)).map Player.x =
        some (dirStep player.x player.y direction).1 ∧
      ((movePlayer s id direction).players.find? (fun p => p.id == id)).map Player.y =
        some (dirStep player.x player.y direction).2 ∧
      ((movePlayer s id direction).players.find? (fun p => p.id == id)).map Player.direction =
        some direction) :=
  movePlayer_characterization s id direction player hGO hfind halive

/-- A concrete player used by witnesses: alive at (1, 1) with default stats. -/
def p0W : Player :=
  { id := "p1", nickname := "n", x := 1, y := 1, color := "c", isAlive := true,
    bombsMax := 1, bombsPlaced := 0, explosionRadius := 2, speed := 1,
    direction := "down" }

/-- A concrete state whose grid is entirely SOLID, so every move of `p0W` is
blocked. -/
def sBlockedW : GameState :=
  { players := [p0W], bombs := [], explosions := [], powerUps := [],
    grid := List.replicate 21 (List.replicate 21 Tile.solid), winner := none,
    isGameOver := false, diffs := [] }

/-- Witness for C5: in `sBlockedW` the move "up" is blocked by a SOLID cell;
the player keeps its coordinates, and only a `playerFaced` diff is emitted. -/
theorem c5_movement_witness :
    sBlockedW.isGameOver = false ∧
    sBlockedW.players.find? (fun p => p.id == "p1") = some p0W ∧
    p0W.isAlive = true ∧
    isPassable sBlockedW (dirStep p0W.x p0W.y "up").1 (dirStep p0W.x p0W.y "up").2 = false ∧
    ((movePlayer sBlockedW "p1" "up").players.find? (fun p => p.id == "p1")).map Player.x =
      some p0W.x ∧
    (movePlayer sBlockedW "p1" "up").diffs = [Diff.playerFaced "p1" "up"] := by
  have h := c5_movement sBlockedW "p1" "up" p0W rfl (by decide) rfl (Or.inl rfl)
  have hb := h.1 (by decide)
  exact ⟨rfl, by decide, rfl, by decide, hb.1, by simpa using hb.2.2.2⟩

/-! ### C6: unrecognized direction values -/

/-- The diff log of `checkPowerUpCollision` either is unchanged (no power-up
under the player) or gains exactly one `powerUpCollected` event. -/
theorem checkPowerUpCollision_diffs_found (s : GameState) (pid : String)
    (q : Player) (pu : PowerUp)
    (hq : s.players.find? (fun p => p.id == pid) = some q)
    (hpu : s.powerUps.find? (fun r => r.x == q.x && r.y == q.y) = some pu) :
    (checkPowerUpCollision s pid).diffs = s.diffs ++ [Diff.powerUpCollected pu.id pid] := by
  unfold checkPowerUpCollision
  rw [hq]
  simp only [hpu]
  simp [queueUpdate]

/-- The diff log of `checkPowerUpCollision` always extends the previous log. -/
theorem checkPowerUpCollision_diffs_shape (s : GameState) (pid : String) :
    ∃ ds, (checkPowerUpCollision s pid).diffs = s.diffs ++ ds := by
  unfold checkPowerUpCollision
  split
  · exact ⟨[], by simp⟩
  · split
    · exact ⟨[], by simp⟩
    · rename_i player hp powerUp hq
      exact ⟨[Diff.powerUpCollected powerUp.id pid], rfl⟩

/-- A state exhibiting the C6 counterexample: the alive player `p0W` stands at
(1, 1) of an all-EMPTY grid, with a `bomb_count` power-up under it (power-ups
do not block spawning a player onto their cell). -/
def sC6 : GameState :=
  { players := [p0W], bombs := [], explosions := [],
    powerUps := [{ id := powerUpId 1 1, x := 1, y := 1, type := PowerUpType.bomb_count }],
    grid := List.replicate 21 (List.replicate 21 Tile.empty), winner := none,
    isGameOver := false, diffs := [] }

/-- Counterexample to C6 as stated: for the unrecognized direction "diag" the
move is not a no-op besides the facing update — the fall-through switch leaves
the target equal to the current cell, which is passable here, so the code
emits a `playerMoved` diff (not a facing-only diff), evaluates the power-up
pickup, collects the power-up and changes the player's `bombsMax`. -/
theorem c6_counterexample :
    ¬ (∀ d ∈ (movePlayer sC6 "p1" "diag").diffs, d = Diff.playerFaced "p1" "diag") ∧
    (movePlayer sC6 "p1" "diag").powerUps = [] ∧
    sC6.powerUps ≠ [] ∧
    ((movePlayer sC6 "p1" "diag").players.find? (fun p => p.id == "p1")).map
      Player.bombsMax = some (p0W.bombsMax + 1) := by
  refine ⟨?_, by decide, by decide, by decide⟩
  intro h
  have := h (Diff.playerMoved "p1" 1 1 "diag") (by decide)
  exact absurd this (by decide)

/-- Claim C6 amended: for a direction outside the four cardinal values, the
player's coordinates are unchanged and the facing is updated, and no exception
occurs; but the move is *not* diff-silent: since the fall-through switch makes
the target the player's own cell, when that cell is passable (no bomb under
the player) a `playerMoved` diff with unchanged coordinates is emitted and the
power-up pickup at the current cell *is* evaluated (collecting a power-up
lying there); only when a bomb sits under the player is a facing-only
`playerFaced` diff emitted. -/
theorem c6_unknown_direction (s : GameState) (id direction : String) (player : Player)
    (hGO : s.isGameOver = false)
    (hfind : s.players.find? (fun p => p.id == id) = some player)
    (halive : player.isAlive = true)
    (h1 : direction ≠ "up") (h2 : direction ≠ "down") (h3 : direction ≠ "left")
    (h4 : direction ≠ "right") :
    (((movePlayer s id direction).players.find? (fun p => p.id == id)).map Player.x =
        some player.x ∧
      ((movePlayer s id direction).players.find? (fun p => p.id == id)).map Player.y =
        some player.y ∧
      ((movePlayer s id direction).players.find? (fun p => p.id == id)).map Player.direction =
        some direction) ∧
    (isPassable s player.x player.y = false →
      (movePlayer s id direction).diffs = s.diffs ++ [Diff.playerFaced id direction]) ∧
    (isPassable s player.x player.y = true →
      (∃ rest, (movePlayer s id direction).diffs =
        s.diffs ++ Diff.playerMoved id player.x player.y direction :: rest) ∧
      (∀ pu, s.powerUps.find? (fun q => q.x == player.x && q.y == player.y) = some pu →
        (movePlayer s id direction).diffs =
          s.diffs ++ [Diff.playerMoved id player.x player.y direction,
            Diff.powerUpCollected pu.id id])) := by
  have hstep : dirStep player.x player.y direction = (player.x, player.y) := by
    simp [dirStep, h1, h2, h3, h4]
  have hmain := movePlayer_characterization s id direction player hGO hfind halive
  rw [hstep] at hmain
  refine ⟨?_, ?_, ?_⟩
  · by_cases hp : isPassable s player.x player.y = true
    · exact (hmain.2 hp)
    · have hp' : isPassable s player.x player.y = false := by
        cases hps : isPassable s player.x player.y
        · rfl
        · exact absurd hps hp
      exact ⟨(hmain.1 hp').1, (hmain.1 hp').2.1, (hmain.1 hp').2.2.1⟩
  · intro hblock
    exact (hmain.1 hblock).2.2.2
  · intro hpass
    have hr : movePlayer s id direction =
        checkPowerUpCollision
          (queueUpdate
            (updatePlayer (updatePlayer s id (fun p => { p with direction := direction })) id
              (fun p => { p with x := player.x, y := player.y }))
            (Diff.playerMoved id player.x player.y direction)) id := by
      simp only [movePlayer, hGO, hfind, halive, Bool.not_true, Bool.false_eq_true,
        if_false, isPassable_updatePlayer, hstep, hpass, if_true]
    have hfind2 : (updatePlayer (updatePlayer s id (fun p => { p with direction := direction })) id
        (fun p => { p with x := player.x, y := player.y })).players.find?
        (fun p => p.id == id) =
        some { player with direction := direction, x := player.x, y := player.y } := by
      rw [updatePlayer_find _ id (fun p => { p with x := player.x, y := player.y })
        (fun p => rfl),
        updatePlayer_find s id (fun p => { p with direction := direction })
          (fun p => rfl), hfind]; rfl
    constructor
    · obtain ⟨ds, hds⟩ := checkPowerUpCollision_diffs_shape
        (queueUpdate
          (updatePlayer (updatePlayer s id (fun p => { p with direction := direction })) id
            (fun p => { p with x := player.x, y := player.y }))
          (Diff.playerMoved id player.x player.y direction)) id
      refine ⟨ds, ?_⟩
      rw [hr, hds]
      simp
    · intro pu hpu
      rw [hr, checkPowerUpCollision_diffs_found _ id
        { player with direction := direction, x := player.x, y := player.y } pu
        (by simpa using hfind2) (by simpa using hpu)]
      simp

/-- Witness for C6 (amended): the concrete run on `sC6` with direction
"diag". -/
theorem c6_unknown_direction_witness :
    sC6.isGameOver = false ∧
    sC6.players.find? (fun p => p.id == "p1") = some p0W ∧
    p0W.isAlive = true ∧
    isPassable sC6 p0W.x p0W.y = true ∧
    ((movePlayer sC6 "p1" "diag").players.find? (fun p => p.id == "p1")).map Player.x =
      some p0W.x ∧
    (movePlayer sC6 "p1" "diag").diffs =
      [Diff.playerMoved "p1" p0W.x p0W.y "diag",
       Diff.powerUpCollected (powerUpId 1 1) "p1"] := by
  have h := c6_unknown_direction sC6 "p1" "diag" p0W rfl (by decide) rfl
    (by decide) (by decide) (by decide) (by decide)
  refine ⟨rfl, by decide, rfl, by decide, h.1.1, ?_⟩
  have := (h.2.2 (by decide)).2
    { id := powerUpId 1 1, x := 1, y := 1, type := PowerUpType.bomb_count } (by decide)
  simpa using this

/-! ### C7/C9: bomb cap, detonation decrement, radius capture -/

@[simp]
theorem trySpawnPowerUp_players (spawnO : Int → Int → Option PowerUpType)
    (s : GameState) (x y : Int) :
    (trySpawnPowerUp spawnO s x y).players = s.players := by
  unfold trySpawnPowerUp; split <;> rfl

@[simp]
theorem trySpawnPowerUp_bombs (spawnO : Int → Int → Option PowerUpType)
    (s : GameState) (x y : Int) :
    (trySpawnPowerUp spawnO s x y).bombs = s.bombs := by
  unfold trySpawnPowerUp; split <;> rfl

@[simp]
theorem trySpawnPowerUp_isGameOver (spawnO : Int → Int → Option PowerUpType)
    (s : GameState) (x y : Int) :
    (trySpawnPowerUp spawnO s x y).isGameOver = s.isGameOver := by
  unfold trySpawnPowerUp; split <;> rfl

@[simp]
theorem trySpawnPowerUp_winner (spawnO : Int → Int → Option PowerUpType)
    (s : GameState) (x y : Int) :
    (trySpawnPowerUp spawnO s x y).winner = s.winner := by
  unfold trySpawnPowerUp; split <;> rfl

@[simp]
theorem trySpawnPowerUp_explosions (spawnO : Int → Int → Option PowerUpType)
    (s : GameState) (x y : Int) :
    (trySpawnPowerUp spawnO s x y).explosions = s.explosions := by
  unfold trySpawnPowerUp; split <;> rfl

@[simp]
theorem trySpawnPowerUp_grid (spawnO : Int → Int → Option PowerUpType)
    (s : GameState) (x y : Int) :
    (trySpawnPowerUp spawnO s x y).grid = s.grid := by
  unfold trySpawnPowerUp; split <;> rfl

/-- `find?` after `putBy`: the stored entry under the written key is the new
value, whether the key already existed (replace) or not (append). -/
theorem putBy_find? {α : Type} (key : α → String) (l : List α) (a : α) :
    (putBy key l a).find? (fun b => key b == key a) = some a := by
  unfold putBy
  by_cases h : l.any (fun b => key b == key a) = true
  · rw [if_pos h]
    induction l with
    | nil => simp at h
    | cons p t ih =>
      simp only [List.map_cons, List.find?_cons]
      by_cases hp : (key p == key a) = true
      · rw [if_pos hp, (by simp : (key a == key a) = true)]
      · rw [if_neg hp, eq_false_of_ne_true hp]
        exact ih (by simpa [hp] using h)
  · rw [if_neg h]
    have hall := List.any_eq_false.mp (eq_false_of_ne_true h)
    induction l with
    | nil => simp [List.find?_cons]
    | cons p t ih =>
      have hp : ¬ (key p == key a) = true := hall p (by simp)
      simp only [List.cons_append, List.find?_cons, eq_false_of_ne_true hp]
      exact ih (by simpa [hp] using h) (fun b hb => hall b (by simp [hb]))

/-- An active-round `placeBomb` by an alive player below the cap: the bomb is
stored (radius captured by value from the owner's current `explosionRadius`),
the owner's `bombsPlaced` is incremented and a `bombPlaced` diff is queued. -/
theorem placeBomb_under_cap (s : GameState) (pid : String) (now : Int) (player : Player)
    (hGO : s.isGameOver = false)
    (hfind : s.players.find? (fun p => p.id == pid) = some player)
    (halive : player.isAlive = true)
    (hcap : ¬ player.bombsMax ≤ player.bombsPlaced) :
    placeBomb s pid now =
      queueUpdate
        (updatePlayer
          { s with bombs := putBy Bomb.id s.bombs (placedBombOf pid now player) }
          pid (fun p => { p with bombsPlaced := p.bombsPlaced + 1 }))
        (Diff.bombPlaced (placedBombOf pid now player)) := by
  unfold placeBomb
  rw [hGO]
  simp only [Bool.false_eq_true, if_false, hfind, halive, Bool.not_true,
    decide_eq_false hcap, Bool.or_false, Bool.false_or]

/-- `placeBomb` at the cap is a silent no-op. -/
theorem placeBomb_at_cap (s : GameState) (pid : String) (now : Int) (player : Player)
    (hfind : s.players.find? (fun p => p.id == pid) = some player)
    (hcap : player.bombsMax ≤ player.bombsPlaced) :
    placeBomb s pid now = s := by
  unfold placeBomb
  by_cases hg : s.isGameOver = true
  · rw [if_pos hg]
  · rw [if_neg hg, hfind]
    simp [decide_eq_true hcap]

/-- One direction of the explosion walk over a bomb-free state: it completes
(returns `some`), never touches the player list, the bomb set, the game-over
flag, the winner or the explosion set. -/
theorem walkDir_no_bombs (recur : GameState → Int → Int → String → Int → Option GameState)
    (spawnO : Int → Int → Option PowerUpType) (dx dy : Int) :
    ∀ (rem : Nat) (px py : Int) (st : GameState) (ts : List (Int × Int)),
      st.bombs = [] →
      ∃ st' ts', walkDir recur spawnO dx dy rem px py st ts = some (st', ts') ∧
        st'.players = st.players ∧ st'.bombs = [] ∧
        st'.isGameOver = st.isGameOver ∧ st'.winner = st.winner ∧
        st'.explosions = st.explosions := by
  intro rem
  induction rem with
  | zero =>
    intro px py st ts hb
    exact ⟨st, ts, rfl, rfl, hb, rfl, rfl, rfl⟩
  | succ rem ih =>
    intro px py st ts hb
    simp only [walkDir]
    split
    · exact ⟨st, ts, rfl, rfl, hb, rfl, rfl, rfl⟩
    · split
      · exact ⟨st, ts, rfl, rfl, hb, rfl, rfl, rfl⟩
      · rw [hb]
        simp only [List.map_nil, bombScan]
        split
        · refine ⟨_, _, rfl, ?_, ?_, ?_, ?_, ?_⟩ <;> simp [hb]
        · obtain ⟨st', ts', heq, h1, h2, h3, h4, h5⟩ :=
            ih (px + dx) (py + dy) st (addTile ts (px + dx, py + dy)) hb
          exact ⟨st', ts', heq, h1, h2, h3, h4, h5⟩

/-- The four-direction walk over a bomb-free state (same preservation). -/
theorem walkDirs_no_bombs (recur : GameState → Int → Int → String → Int → Option GameState)
    (spawnO : Int → Int → Option PowerUpType) (radius : Nat) (ox oy : Int) :
    ∀ (ds : List (Int × Int)) (st : GameState) (ts : List (Int × Int)),
      st.bombs = [] →
      ∃ st' ts', walkDirs recur spawnO radius ox oy ds st ts = some (st', ts') ∧
        st'.players = st.players ∧ st'.bombs = [] ∧
        st'.isGameOver = st.isGameOver ∧ st'.winner = st.winner ∧
        st'.explosions = st.explosions := by
  intro ds
  induction ds with
  | nil =>
    intro st ts hb
    exact ⟨st, ts, rfl, rfl, hb, rfl, rfl, rfl⟩
  | cons d rest ih =>
    intro st ts hb
    obtain ⟨st1, ts1, heq1, h1, h2, h3, h4, h5⟩ :=
      walkDir_no_bombs recur spawnO d.1 d.2 radius ox oy st ts hb
    obtain ⟨st2, ts2, heq2, g1, g2, g3, g4, g5⟩ := ih st1 ts1 h2
    refine ⟨st2, ts2, ?_, g1.trans h1, g2, g3.trans h3, g4.trans h4, g5.trans h5⟩
    simp only [walkDirs, heq1, heq2]

/-- `createExplosion` on a bomb-free state: it completes with one unit of
fuel, leaves the bomb set empty, keeps the round flags, and decrements the
owner's `bombsPlaced` exactly when the owner is still registered — with no
condition on the owner being alive. -/
theorem createExplosion_no_bombs (spawnO : Int → Int → Option PowerUpType)
    (fuel : Nat) (s : GameState) (x y : Int) (ownerId : String) (radius now : Int)
    (hb : s.bombs = []) :
    ∃ t, createExplosion spawnO (fuel + 1) s x y ownerId radius now = some t ∧
      t.bombs = [] ∧ t.isGameOver = s.isGameOver ∧ t.winner = s.winner ∧
      (∀ q, s.players.find? (fun p => p.id == ownerId) = some q →
        t.players = s.players.map
          (fun p => if p.id == ownerId then { p with bombsPlaced := p.bombsPlaced - 1 } else p)) ∧
      (s.players.find? (fun p => p.id == ownerId) = none → t.players = s.players) := by
  obtain ⟨st, ts, heq, h1, h2, h3, h4, h5⟩ :=
    walkDirs_no_bombs (fun st bx b_y o r => createExplosion spawnO fuel st bx b_y o r now)
      spawnO radius.toNat x y DIRECTIONS s [(x, y)] hb
  cases hf : st.players.find? (fun p => p.id == ownerId) with
  | none =>
    have hres : createExplosion spawnO (fuel + 1) s x y ownerId radius now =
        some (queueUpdate
          { st with explosions := putBy Explosion.id st.explosions (explosionOf x y now ts) }
          (Diff.explosion (explosionOf x y now ts))) := by
      simp only [createExplosion, heq, queueUpdate_players]
      rw [hf]
    refine ⟨_, hres, by simp [h2], by simp [h3], by simp [h4], ?_, ?_⟩
    · intro q hq
      rw [h1, hq] at hf
      simp at hf
    · intro _
      simp [h1]
  | some q0 =>
    have hres : createExplosion spawnO (fuel + 1) s x y ownerId radius now =
        some (updatePlayer
          (queueUpdate
            { st with explosions := putBy Explosion.id st.explosions (explosionOf x y now ts) }
            (Diff.explosion (explosionOf x y now ts)))
          ownerId (fun p => { p with bombsPlaced := p.bombsPlaced - 1 })) := by
      simp only [createExplosion, heq, queueUpdate_players]
      rw [hf]
    refine ⟨_, hres, by simp [h2], by simp [h3], by simp [h4], ?_, ?_⟩
    · intro q' _
      simp [updatePlayer, h1]
    · intro hnone
      rw [h1, hnone] at hf
      simp at hf

/-- The full shape of `checkPowerUpCollision` when the player is found and a
power-up occupies its cell. -/
theorem checkPowerUpCollision_found (s : GameState) (pid : String) (q : Player)
    (pu : PowerUp)
    (hq : s.players.find? (fun p => p.id == pid) = some q)
    (hpu : s.powerUps.find? (fun r => r.x == q.x && r.y == q.y) = some pu) :
    checkPowerUpCollision s pid =
      queueUpdate
        { updatePlayer s pid (applyPowerUp pu.type) with
          powerUps := (updatePlayer s pid (applyPowerUp pu.type)).powerUps.eraseP
            (fun r => r.id == pu.id) }
        (Diff.powerUpCollected pu.id pid) := by
  unfold checkPowerUpCollision
  rw [hq]
  simp only [hpu]

/-- Claim C7: a player whose `bombsPlaced` equals `bombsMax` cannot place an
additional bomb — `placeBomb` returns the state unchanged, with no diff; when
one of that player's bombs detonates, the owner's `bombsPlaced` is decremented
by one with no condition on `isAlive`, after which a placement succeeds again
(the bomb list grows and `bombsPlaced` returns to its old value). -/
theorem c7_bomb_cap (s : GameState) (pid : String) (now : Int) (player : Player)
    (hfind : s.players.find? (fun p => p.id == pid) = some player)
    (hcap : player.bombsPlaced = player.bombsMax) :
    placeBomb s pid now = s ∧
    (∀ (s2 : GameState) (q : Player) (x y radius now2 now3 : Int)
       (spawnO : Int → Int → Option PowerUpType) (fuel : Nat),
      s2.bombs = [] → s2.isGameOver = false →
      s2.players.find? (fun p => p.id == pid) = some q →
      q.bombsPlaced = q.bombsMax →
      ∃ t, createExplosion spawnO (fuel + 1) s2 x y pid radius now2 = some t ∧
        (t.players.find? (fun p => p.id == pid)).map Player.bombsPlaced =
          some (q.bombsPlaced - 1) ∧
        (q.isAlive = true →
          (placeBomb t pid now3).bombs.length = t.bombs.length + 1 ∧
          ((placeBomb t pid now3).players.find? (fun p => p.id == pid)).map
            Player.bombsPlaced = some q.bombsPlaced)) := by
  constructor
  · exact placeBomb_at_cap s pid now player hfind (hcap ▸ le_refl _)
  · intro s2 q x y radius now2 now3 spawnO fuel hb hgo hq hqcap
    obtain ⟨t, hce, hb0, hgo0, hw0, hsome, hnone⟩ :=
      createExplosion_no_bombs spawnO fuel s2 x y pid radius now2 hb
    have hplayers := hsome q hq
    have hfindt : t.players.find? (fun p => p.id == pid) =
        some { q with bombsPlaced := q.bombsPlaced - 1 } := by
      rw [hplayers,
        find?_map_update s2.players pid
          (fun p => { p with bombsPlaced := p.bombsPlaced - 1 }) (fun p => rfl), hq]
      rfl
    refine ⟨t, hce, by rw [hfindt]; rfl, ?_⟩
    intro halive
    have hcap' : ¬ ({ q with bombsPlaced := q.bombsPlaced - 1 } : Player).bombsMax ≤
        ({ q with bombsPlaced := q.bombsPlaced - 1 } : Player).bombsPlaced := by
      simp only []
      omega
    have hpb := placeBomb_under_cap t pid now3
      { q with bombsPlaced := q.bombsPlaced - 1 }
      (hgo0.trans hgo) hfindt halive hcap'
    constructor
    · rw [hpb]
      show (putBy Bomb.id t.bombs (placedBombOf pid now3
        { q with bombsPlaced := q.bombsPlaced - 1 })).length = t.bombs.length + 1
      rw [hb0]
      simp [putBy]
    · rw [hpb]
      show (((updatePlayer { t with bombs := putBy Bomb.id t.bombs (placedBombOf pid now3
          { q with bombsPlaced := q.bombsPlaced - 1 }) } pid
          (fun p => { p with bombsPlaced := p.bombsPlaced + 1 })).players.find?
          (fun p => p.id == pid))).map Player.bombsPlaced = some q.bombsPlaced
      rw [updatePlayer_find _ pid
        (fun p => { p with bombsPlaced := p.bombsPlaced + 1 }) (fun p => rfl)]
      have hfindt' : ({ t with bombs := putBy Bomb.id t.bombs (placedBombOf pid now3
          { q with bombsPlaced := q.bombsPlaced - 1 }) } :
          GameState).players.find? (fun p => p.id == pid) =
          some { q with bombsPlaced := q.bombsPlaced - 1 } := hfindt
      rw [hfindt']
      simp only [Option.map_some']
      show some (q.bombsPlaced - 1 + 1) = some q.bombsPlaced
      congr 1
      omega

/-- A concrete player at its bomb cap. -/
def pCapW : Player :=
  { id := "p1", nickname := "n", x := 1, y := 1, color := "c", isAlive := true,
    bombsMax := 1, bombsPlaced := 1, explosionRadius := 2, speed := 1,
    direction := "down" }

/-- A concrete active state holding `pCapW` and no bombs, on an all-EMPTY
grid. -/
def sCapW : GameState :=
  { players := [pCapW], bombs := [], explosions := [], powerUps := [],
    grid := List.replicate 21 (List.replicate 21 Tile.empty), winner := none,
    isGameOver := false, diffs := [] }

/-- Witness for C7: in `sCapW` the capped player cannot place a bomb, and a
detonation of one of its bombs frees the slot. -/
theorem c7_bomb_cap_witness :
    sCapW.players.find? (fun p => p.id == "p1") = some pCapW ∧
    pCapW.bombsPlaced = pCapW.bombsMax ∧
    placeBomb sCapW "p1" 500 = sCapW ∧
    (∃ t, createExplosion (fun _ _ => none) 1 sCapW 1 1 "p1" 2 600 = some t ∧
      (t.players.find? (fun p => p.id == "p1")).map Player.bombsPlaced =
        some (pCapW.bombsPlaced - 1) ∧
      (placeBomb t "p1" 700).bombs.length = t.bombs.length + 1) := by
  have h := c7_bomb_cap sCapW "p1" 500 pCapW (by decide) rfl
  obtain ⟨t, hce, hdec, hplace⟩ :=
    h.2 sCapW pCapW 1 1 2 600 700 (fun _ _ => none) 0 rfl rfl (by decide) rfl
  exact ⟨by decide, rfl, h.1, ⟨t, hce, hdec, (hplace rfl).1⟩⟩

/-- Claim C9: a bomb's blast radius is captured by value from its owner's
`explosionRadius` at placement time; collecting a `bomb_range` power-up after
placement bumps the owner's `explosionRadius` but does not touch any stored
bomb, so the stored radius (the one `updateBombs` hands to the detonation) is
still the placement-time value. -/
theorem c9_radius_capture (s : GameState) (pid : String) (now : Int)
    (player : Player) (pu : PowerUp)
    (hGO : s.isGameOver = false)
    (hfind : s.players.find? (fun p => p.id == pid) = some player)
    (halive : player.isAlive = true)
    (hcap : ¬ player.bombsMax ≤ player.bombsPlaced)
    (hpu : s.powerUps.find? (fun q => q.x == player.x && q.y == player.y) = some pu)
    (hty : pu.type = PowerUpType.bomb_range) :
    (checkPowerUpCollision (placeBomb s pid now) pid).bombs =
      (placeBomb s pid now).bombs ∧
    ((checkPowerUpCollision (placeBomb s pid now) pid).bombs.find?
        (fun b => b.id == (placedBombOf pid now player).id)).map Bomb.radius =
      some player.explosionRadius ∧
    ((checkPowerUpCollision (placeBomb s pid now) pid).players.find?
        (fun p => p.id == pid)).map Player.explosionRadius =
      some (player.explosionRadius + 1) := by
  have hpb := placeBomb_under_cap s pid now player hGO hfind halive hcap
  have hfind1 : (placeBomb s pid now).players.find? (fun p => p.id == pid) =
      some { player with bombsPlaced := player.bombsPlaced + 1 } := by
    rw [hpb]
    simp only [queueUpdate_players]
    rw [updatePlayer_find _ pid
      (fun p => { p with bombsPlaced := p.bombsPlaced + 1 }) (fun p => rfl)]
    have : ({ s with bombs := putBy Bomb.id s.bombs (placedBombOf pid now player) } :
        GameState).players.find? (fun p => p.id == pid) = some player := hfind
    rw [this]
    rfl
  have hpu1 : (placeBomb s pid now).powerUps.find?
      (fun q => q.x == ({ player with bombsPlaced := player.bombsPlaced + 1 } : Player).x &&
                 q.y == ({ player with bombsPlaced := player.bombsPlaced + 1 } : Player).y) =
      some pu := by
    rw [hpb]
    exact hpu
  have hcoll := checkPowerUpCollision_found (placeBomb s pid now) pid
    { player with bombsPlaced := player.bombsPlaced + 1 } pu hfind1 hpu1
  have hbombs1 : (placeBomb s pid now).bombs =
      putBy Bomb.id s.bombs (placedBombOf pid now player) := by
    rw [hpb]
    rfl
  refine ⟨checkPowerUpCollision_bombs _ pid, ?_, ?_⟩
  · rw [checkPowerUpCollision_bombs _ pid, hbombs1, putBy_find? Bomb.id s.bombs]
    rfl
  · have hid : ∀ p : Player, (applyPowerUp pu.type p).id = p.id := fun p => by
      cases pu.type <;> rfl
    have hfind2 : (updatePlayer (placeBomb s pid now) pid
        (applyPowerUp pu.type)).players.find? (fun p => p.id == pid) =
        some (applyPowerUp pu.type
          { player with bombsPlaced := player.bombsPlaced + 1 }) := by
      rw [updatePlayer_find _ pid (applyPowerUp pu.type) hid, hfind1]
      rfl
    rw [hcoll]
    show ((updatePlayer (placeBomb s pid now) pid
        (applyPowerUp pu.type)).players.find? (fun p => p.id == pid)).map
        Player.explosionRadius = some (player.explosionRadius + 1)
    rw [hfind2, hty]
    rfl

/-! ### C2: grid generation -/

/-- Reading a generated grid inside the bounds gives the per-cell function. -/
theorem getCell_initializeGrid (rand : Int → Int → Bool) (x y : Int)
    (hx0 : 0 ≤ x) (hx : x < 21) (hy0 : 0 ≤ y) (hy : y < 21) :
    getCell (initializeGrid rand) x y = genTile rand x y := by
  have hxn : x.toNat < 21 := by omega
  have hyn : y.toNat < 21 := by omega
  unfold getCell initializeGrid
  simp only [List.getD_eq_getElem?_getD, List.getElem?_map,
    List.getElem?_range hyn, List.getElem?_range hxn, Option.map_some',
    Option.getD_some]
  rw [Int.toNat_of_nonneg hx0, Int.toNat_of_nonneg hy0]

/-- The spawn-zone cell list, evaluated. -/
theorem spawnZones_eq :
    spawnZones = [(1, 1), (2, 1), (1, 2), (2, 2), (18, 18), (19, 18), (18, 19),
      (19, 19), (18, 1), (19, 1), (18, 2), (19, 2), (1, 18), (2, 18), (1, 19),
      (2, 19)] := by decide

/-- Every spawn-zone cell is interior. -/
theorem spawnZones_interior :
    ∀ c ∈ spawnZones, 1 ≤ c.1 ∧ c.1 ≤ 19 ∧ 1 ≤ c.2 ∧ c.2 ≤ 19 := by decide

/-- Claim C2 amended: for every generated grid, all border cells are SOLID;
every spawn-zone cell is EMPTY; every interior cell with at least one odd
coordinate outside the spawn zones is SOLID (not EMPTY: the code builds the
inverted map, where the old pillars become the open cells); and each interior
cell with both coordinates even outside the spawn zones is SOFT exactly when
the soft-block random draw fires, EMPTY otherwise. -/
theorem c2_grid_generation (rand : Int → Int → Bool) (x y : Int)
    (hx0 : 0 ≤ x) (hx : x < GRID_WIDTH) (hy0 : 0 ≤ y) (hy : y < GRID_HEIGHT) :
    (x = 0 ∨ x = GRID_WIDTH - 1 ∨ y = 0 ∨ y = GRID_HEIGHT - 1 →
      getCell (initializeGrid rand) x y = Tile.solid) ∧
    ((x, y) ∈ spawnZones → getCell (initializeGrid rand) x y = Tile.empty) ∧
    (1 ≤ x → x ≤ 19 → 1 ≤ y → y ≤ 19 → ¬(x % 2 = 0 ∧ y % 2 = 0) →
      (x, y) ∉ spawnZones → getCell (initializeGrid rand) x y = Tile.solid) ∧
    (1 ≤ x → x ≤ 19 → 1 ≤ y → y ≤ 19 → x % 2 = 0 → y % 2 = 0 →
      (x, y) ∉ spawnZones →
      getCell (initializeGrid rand) x y =
        (if rand x y then Tile.soft else Tile.empty)) := by
  refine ⟨?_, ?_, ?_, ?_⟩
  · intro hb
    have hnz : (x, y) ∉ spawnZones := fun hmem => by
      have h : 1 ≤ x ∧ x ≤ 19 ∧ 1 ≤ y ∧ y ≤ 19 := by
        simpa using spawnZones_interior _ hmem
      simp only [GRID_WIDTH, GRID_HEIGHT] at hb
      omega
    rw [getCell_initializeGrid rand x y hx0 hx hy0 hy]
    unfold genTile baseTile
    rw [if_neg hnz]
    have hb' : y = 0 ∨ y = GRID_HEIGHT - 1 ∨ x = 0 ∨ x = GRID_WIDTH - 1 := by tauto
    rw [if_pos hb']
    rw [if_neg (by simp)]
  · intro hz
    rw [getCell_initializeGrid rand x y hx0 hx hy0 hy]
    unfold genTile
    rw [if_neg (fun hA => hA.2.2.2.2.2.1 hz)]
    rw [if_pos hz]
  · intro h1 h19 h2 h29 hpar hnz
    rw [getCell_initializeGrid rand x y hx0 hx hy0 hy]
    unfold genTile baseTile
    rw [if_neg hnz]
    have hnb : ¬ (y = 0 ∨ y = GRID_HEIGHT - 1 ∨ x = 0 ∨ x = GRID_WIDTH - 1) := by
      simp only [GRID_WIDTH, GRID_HEIGHT]
      omega
    rw [if_neg hnb, if_neg hpar]
    rw [if_neg (by simp)]
  · intro h1 h19 h2 h29 hex hey hnz
    rw [getCell_initializeGrid rand x y hx0 hx hy0 hy]
    unfold genTile baseTile
    rw [if_neg hnz]
    have hnb : ¬ (y = 0 ∨ y = GRID_HEIGHT - 1 ∨ x = 0 ∨ x = GRID_WIDTH - 1) := by
      simp only [GRID_WIDTH, GRID_HEIGHT]
      omega
    rw [if_neg hnb, if_pos (show x % 2 = 0 ∧ y % 2 = 0 from ⟨hex, hey⟩)]
    by_cases hr : rand x y = true
    · rw [if_pos ⟨h1, by simp only [GRID_WIDTH]; omega, h2,
        by simp only [GRID_HEIGHT]; omega, rfl, hnz, hr⟩, if_pos hr]
    · rw [if_neg (fun hA => hr hA.2.2.2.2.2.2), if_neg hr]

/-- Counterexample to C2 as stated: (4, 4) is an interior cell with both
coordinates even, outside every spawn zone, yet the generated grid (with a
never-SOFT random source) holds EMPTY there — not SOLID as the claim asserts.
The source's `initializeGrid` deliberately builds the inverted map ("Pillars
become empty ... Paths become solid"). -/
theorem c2_counterexample :
    (1 : Int) ≤ 4 ∧ (4 : Int) ≤ 19 ∧ (4 : Int) % 2 = 0 ∧
    ((4 : Int), (4 : Int)) ∉ spawnZones ∧
    getCell (initializeGrid (fun _ _ => false)) 4 4 = Tile.empty ∧
    getCell (initializeGrid (fun _ _ => false)) 4 4 ≠ Tile.solid := by
  have h := getCell_initializeGrid (fun _ _ => false) 4 4
    (by norm_num) (by norm_num) (by norm_num) (by norm_num)
  rw [h]
  refine ⟨by norm_num, by norm_num, by norm_num, by decide, by decide, by decide⟩

/-- Witness for C2 (amended): with an always-SOFT random source, cell (4, 4)
is SOFT and the border cell (0, 7) is SOLID, and with spawn-zone cell (2, 2)
EMPTY. -/
theorem c2_grid_generation_witness :
    (0 : Int) ≤ 4 ∧ (4 : Int) < GRID_WIDTH ∧
    getCell (initializeGrid (fun _ _ => true)) 4 4 = Tile.soft ∧
    getCell (initializeGrid (fun _ _ => true)) 0 7 = Tile.solid ∧
    getCell (initializeGrid (fun _ _ => true)) 2 2 = Tile.empty := by
  have h44 := c2_grid_generation (fun _ _ => true) 4 4
    (by decide) (by decide) (by decide) (by decide)
  have h07 := c2_grid_generation (fun _ _ => true) 0 7
    (by decide) (by decide) (by decide) (by decide)
  have h22 := c2_grid_generation (fun _ _ => true) 2 2
    (by decide) (by decide) (by decide) (by decide)
  refine ⟨by norm_num, by decide, ?_, ?_, ?_⟩
  · have := h44.2.2.2 (by norm_num) (by norm_num) (by norm_num) (by norm_num)
      (by norm_num) (by norm_num) (by decide)
    simpa using this
  · exact h07.1 (Or.inl rfl)
  · exact h22.2.1 (by decide)

/-- A concrete `bomb_range` power-up at (1, 1). -/
def puRangeW : PowerUp :=
  { id := powerUpId 1 1, x := 1, y := 1, type := PowerUpType.bomb_range }

/-- A concrete active state: `p0W` (radius 2, no bombs placed) standing on the
`bomb_range` power-up `puRangeW`, all-EMPTY grid, no bombs. -/
def sC9 : GameState :=
  { players := [p0W], bombs := [], explosions := [], powerUps := [puRangeW],
    grid := List.replicate 21 (List.replicate 21 Tile.empty), winner := none,
    isGameOver := false, diffs := [] }

/-- Witness for C9: place a bomb in `sC9`, then collect the `bomb_range`
power-up; the stored bomb radius is still 2 while the player's radius is 3. -/
theorem c9_radius_capture_witness :
    sC9.isGameOver = false ∧
    sC9.players.find? (fun p => p.id == "p1") = some p0W ∧
    p0W.isAlive = true ∧
    ¬ p0W.bombsMax ≤ p0W.bombsPlaced ∧
    sC9.powerUps.find? (fun q => q.x == p0W.x && q.y == p0W.y) = some puRangeW ∧
    puRangeW.type = PowerUpType.bomb_range ∧
    ((checkPowerUpCollision (placeBomb sC9 "p1" 100) "p1").bombs.find?
        (fun b => b.id == (placedBombOf "p1" 100 p0W).id)).map Bomb.radius =
      some p0W.explosionRadius ∧
    ((checkPowerUpCollision (placeBomb sC9 "p1" 100) "p1").players.find?
        (fun p => p.id == "p1")).map Player.explosionRadius =
      some (p0W.explosionRadius + 1) := by
  have h := c9_radius_capture sC9 "p1" 100 p0W puRangeW rfl (by decide) rfl
    (by decide) (by decide) rfl
  exact ⟨rfl, by decide, rfl, by decide, by decide, rfl, h.2.1, h.2.2⟩

/-! ### Stability of state predicates under the explosion engine -/

/-- Closure of a state predicate under the primitive state transforms
performed by `createExplosion` and its helpers. -/
structure CEStable (P : GameState → Prop) : Prop where
  qu : ∀ s d, P s → P (queueUpdate s d)
  up : ∀ s id f, P s → P (updatePlayer s id f)
  gr : ∀ s g, P s → P { s with grid := g }
  bo : ∀ s bs, P s → P { s with bombs := bs }
  ex : ∀ s es, P s → P { s with explosions := es }
  sp : ∀ spawnO s x y, P s → P (trySpawnPowerUp spawnO s x y)

theorem bombScan_stable (P : GameState → Prop) (hP : CEStable P)
    (recur : GameState → Int → Int → String → Int → Option GameState)
    (hrec : ∀ st x y o r st', P st → recur st x y o r = some st' → P st') :
    ∀ (keys : List String) (st : GameState) (cx cy : Int) (st' : GameState),
      P st → bombScan recur keys st cx cy = some st' → P st' := by
  intro keys
  induction keys with
  | nil =>
    intro st cx cy st' hp h
    cases h
    exact hp
  | cons k ks ih =>
    intro st cx cy st' hp h
    simp only [bombScan] at h
    split at h
    · exact ih st cx cy st' hp h
    · rename_i b hf
      split at h
      · split at h
        · simp at h
        · rename_i st2 hr
          exact ih _ cx cy st'
            (hP.bo st2 _ (hrec st b.x b.y b.ownerId b.radius st2 hp hr)) h
      · exact ih st cx cy st' hp h

theorem walkDir_stable (P : GameState → Prop) (hP : CEStable P)
    (recur : GameState → Int → Int → String → Int → Option GameState)
    (hrec : ∀ st x y o r st', P st → recur st x y o r = some st' → P st')
    (spawnO : Int → Int → Option PowerUpType) (dx dy : Int) :
    ∀ (rem : Nat) (px py : Int) (st : GameState) (ts : List (Int × Int))
      (st' : GameState) (ts' : List (Int × Int)),
      P st → walkDir recur spawnO dx dy rem px py st ts = some (st', ts') → P st' := by
  intro rem
  induction rem with
  | zero =>
    intro px py st ts st' ts' hp h
    cases h
    exact hp
  | succ rem ih =>
    intro px py st ts st' ts' hp h
    simp only [walkDir] at h
    split at h
    · cases h; exact hp
    · split at h
      · cases h; exact hp
      · split at h
        · simp at h
        · rename_i st2 hb
          have hp2 : P st2 :=
            bombScan_stable P hP recur hrec _ st _ _ st2 hp hb
          split at h
          · cases h
            exact hP.sp spawnO _ _ _ (hP.qu _ _ (hP.gr st2 _ hp2))
          · exact ih _ _ st2 _ st' ts' hp2 h

theorem walkDirs_stable (P : GameState → Prop) (hP : CEStable P)
    (recur : GameState → Int → Int → String → Int → Option GameState)
    (hrec : ∀ st x y o r st', P st → recur st x y o r = some st' → P st')
    (spawnO : Int → Int → Option PowerUpType) (radius : Nat) (ox oy : Int) :
    ∀ (ds : List (Int × Int)) (st : GameState) (ts : List (Int × Int))
      (st' : GameState) (ts' : List (Int × Int)),
      P st → walkDirs recur spawnO radius ox oy ds st ts = some (st', ts') → P st' := by
  intro ds
  induction ds with
  | nil =>
    intro st ts st' ts' hp h
    cases h
    exact hp
  | cons d rest ih =>
    intro st ts st' ts' hp h
    simp only [walkDirs] at h
    split at h
    · simp at h
    · rename_i st2 ts2 hw
      exact ih st2 ts2 st' ts'
        (walkDir_stable P hP recur hrec spawnO d.1 d.2 radius ox oy st ts st2 ts2 hp hw) h

theorem createExplosion_stable (P : GameState → Prop) (hP : CEStable P)
    (spawnO : Int → Int → Option PowerUpType) :
    ∀ (fuel : Nat) (s : GameState) (x y : Int) (o : String) (r now : Int)
      (t : GameState),
      P s → createExplosion spawnO fuel s x y o r now = some t → P t := by
  intro fuel
  induction fuel with
  | zero => intro s x y o r now t _ h; cases h
  | succ fuel ih =>
    intro s x y o r now t hp h
    simp only [createExplosion] at h
    split at h
    · simp at h
    · rename_i st ts hw
      have hpst : P st :=
        walkDirs_stable P hP _ (fun st2 x2 y2 o2 r2 st2' hp2 hr2 =>
          ih st2 x2 y2 o2 r2 now st2' hp2 hr2) spawnO r.toNat x y DIRECTIONS s
          [(x, y)] st ts hp hw
      cases h
      split
      · exact hP.qu _ _ (hP.ex st _ hpst)
      · exact hP.up _ _ _ (hP.qu _ _ (hP.ex st _ hpst))

theorem detonateList_stable (P : GameState → Prop) (hP : CEStable P)
    (spawnO : Int → Int → Option PowerUpType) (fuel : Nat) (now : Int) :
    ∀ (bs : List Bomb) (st st' : GameState),
      P st → detonateList spawnO fuel now bs st = some st' → P st' := by
  intro bs
  induction bs with
  | nil => intro st st' hp h; cases h; exact hp
  | cons b rest ih =>
    intro st st' hp h
    simp only [detonateList] at h
    split at h
    · simp at h
    · rename_i st2 hc
      exact ih st2 st' (createExplosion_stable P hP spawnO fuel st _ _ _ _ now st2 hp hc) h

theorem updateBombs_stable (P : GameState → Prop) (hP : CEStable P)
    (spawnO : Int → Int → Option PowerUpType) (fuel : Nat) (now : Int)
    (s s' : GameState) (hp : P s) (h : updateBombs spawnO fuel now s = some s') :
    P s' := by
  unfold updateBombs at h
  exact detonateList_stable P hP spawnO fuel now _ _ s' (hP.bo s _ hp) h

/-- The inner per-player explosion scan of `applyExplosionDeaths` preserves
any predicate closed under `queueUpdate` and `updatePlayer`. -/
theorem foldl_explosions_stable (P : GameState → Prop)
    (hqu : ∀ s d, P s → P (queueUpdate s d))
    (hup : ∀ s id f, P s → P (updatePlayer s id f)) (px py : Int) (pid : String) :
    ∀ (es : List Explosion) (s : GameState), P s →
      P (es.foldl (fun st2 e =>
          if (px, py) ∈ e.tiles then
            queueUpdate (updatePlayer st2 pid (fun q => { q with isAlive := false }))
              (Diff.playerDied pid)
          else st2) s) := by
  intro es
  induction es with
  | nil => intro s hp; exact hp
  | cons e rest ih =>
    intro s hp
    simp only [List.foldl_cons]
    apply ih
    by_cases hm : (px, py) ∈ e.tiles
    · rw [if_pos hm]; exact hqu _ _ (hup _ _ _ hp)
    · rw [if_neg hm]; exact hp

theorem applyExplosionDeaths_stable (P : GameState → Prop)
    (hqu : ∀ s d, P s → P (queueUpdate s d))
    (hup : ∀ s id f, P s → P (updatePlayer s id f))
    (s : GameState) (hp : P s) : P (applyExplosionDeaths s) := by
  unfold applyExplosionDeaths
  generalize s.players.map (fun p => p.id) = ids
  induction ids generalizing s with
  | nil => exact hp
  | cons i is ih =>
    simp only [List.foldl_cons]
    apply ih
    split
    · exact hp
    · rename_i p hf
      split
      · exact hp
      · exact foldl_explosions_stable P hqu hup p.x p.y i s.explosions s hp

theorem updateExplosions_stable (P : GameState → Prop)
    (hqu : ∀ s d, P s → P (queueUpdate s d))
    (hup : ∀ s id f, P s → P (updatePlayer s id f))
    (hex : ∀ s es, P s → P { s with explosions := es })
    (now : Int) (s : GameState) (hp : P s) : P (updateExplosions now s) := by
  unfold updateExplosions
  exact hex _ _ (applyExplosionDeaths_stable P hqu hup s hp)

/-! ### C4: win detection -/

/-- The round flags (`isGameOver`, `winner`) are stable through the explosion
engine's primitives. -/
theorem flagStable (b : Bool) : CEStable (fun t => t.isGameOver = b) :=
  { qu := fun _ _ hp => hp
    up := fun _ _ _ hp => hp
    gr := fun _ _ hp => hp
    bo := fun _ _ hp => hp
    ex := fun _ _ hp => hp
    sp := fun _ s _ _ hp => by
      unfold trySpawnPowerUp
      split <;> exact hp }

/-- Behaviour of `checkForWinner` on an active round. -/
theorem checkForWinner_characterization (u : GameState) (hGO : u.isGameOver = false) :
    ((checkForWinner u).isGameOver = true ↔
      2 ≤ u.players.length ∧ (u.players.filter (fun p => p.isAlive)).length ≤ 1) ∧
    (checkForWinner u).players = u.players ∧
    (∀ p, 2 ≤ u.players.length → u.players.filter (fun p => p.isAlive) = [p] →
      (checkForWinner u).winner = some p.nickname ∧
      (checkForWinner u).diffs = u.diffs ++ [Diff.gameOver p.nickname]) ∧
    (2 ≤ u.players.length → u.players.filter (fun p => p.isAlive) = [] →
      (checkForWinner u).winner = some "Draw!" ∧
      (checkForWinner u).diffs = u.diffs ++ [Diff.gameOver "Draw!"]) := by
  unfold checkForWinner
  rw [if_neg (by rw [hGO]; exact Bool.false_ne_true)]
  by_cases hcond : 2 ≤ u.players.length ∧
      (u.players.filter (fun p => p.isAlive)).length ≤ 1
  · rw [if_pos hcond]
    refine ⟨by simpa using hcond, rfl, ?_, ?_⟩
    · intro p _ hfil
      rw [hfil]
      exact ⟨rfl, rfl⟩
    · intro _ hfil
      rw [hfil]
      exact ⟨rfl, rfl⟩
  · rw [if_neg hcond]
    refine ⟨by simp [hGO, hcond], rfl, ?_, ?_⟩
    · intro p hlen hfil
      exact absurd ⟨hlen, by rw [hfil]; simp⟩ hcond
    · intro hlen hfil
      exact absurd ⟨hlen, by rw [hfil]; simp⟩ hcond

/-- The number of `playerJoined` events in the diff log — within a trace that
never drains the log, the number of players that have ever joined. -/
def joinedEventCount (s : GameState) : Nat :=
  (s.diffs.filter (fun d => match d with
    | Diff.playerJoined _ => true
    | _ => false)).length

/-- The C4 counterexample trace: two players join the fresh state, then the
second disconnects. -/
def sTrace : GameState :=
  removePlayer (addPlayer (addPlayer GameState.new "c1" (some "Alice")).1
    "c2" (some "Bob")).1 "c2"

/-- Counterexample to C4 as stated: two players have ever joined (two
`playerJoined` events) and at most one remains alive, yet `checkForWinner`
does not set the game-over flag — the code counts the *currently registered*
players (`Object.keys(this.players).length`), and disconnecting removes a
player from that collection. -/
theorem c4_counterexample :
    joinedEventCount sTrace = 2 ∧
    (sTrace.players.filter (fun p => p.isAlive)).length ≤ 1 ∧
    sTrace.isGameOver = false ∧
    (checkForWinner sTrace).isGameOver = false := by decide

/-- Claim C4 amended: win detection, run every tick while the round is
active, sets the game-over flag exactly when at least 2 players are
*currently registered* (not "have ever joined" — disconnects shrink the
count) and at most 1 is alive; the winner is the sole survivor's nickname
when exactly one is alive and the draw marker when zero are, and the
`gameOver` diff lands in the same tick (it is the last diff of the tick's
log). -/
theorem c4_win_detection (spawnO : Int → Int → Option PowerUpType) (fuel : Nat)
    (now : Int) (s s' : GameState)
    (hGO : s.isGameOver = false)
    (h : gameLoop spawnO fuel now s = some s') :
    (s'.isGameOver = true ↔
      2 ≤ s'.players.length ∧ (s'.players.filter (fun p => p.isAlive)).length ≤ 1) ∧
    (∀ p, 2 ≤ s'.players.length → s'.players.filter (fun p => p.isAlive) = [p] →
      s'.winner = some p.nickname ∧ s'.diffs.getLast? = some (Diff.gameOver p.nickname)) ∧
    (2 ≤ s'.players.length → s'.players.filter (fun p => p.isAlive) = [] →
      s'.winner = some "Draw!" ∧ s'.diffs.getLast? = some (Diff.gameOver "Draw!")) := by
  unfold gameLoop at h
  rw [if_neg (by rw [hGO]; exact Bool.false_ne_true)] at h
  cases hub : updateBombs spawnO fuel now s with
  | none => rw [hub] at h; cases h
  | some ub =>
    rw [hub] at h
    have hub0 : ub.isGameOver = false :=
      updateBombs_stable _ (flagStable false) spawnO fuel now s ub hGO hub
    have hu0 : (updateExplosions now ub).isGameOver = false :=
      updateExplosions_stable (fun t => t.isGameOver = false)
        (fun _ _ hp => hp) (fun _ _ _ hp => hp) (fun _ _ hp => hp) now ub hub0
    have hchar := checkForWinner_characterization (updateExplosions now ub) hu0
    cases h
    obtain ⟨hiff, hplayers, hwin1, hwin0⟩ := hchar
    rw [hplayers]
    refine ⟨hiff, ?_, ?_⟩
    · intro p hlen hfil
      obtain ⟨hw, hd⟩ := hwin1 p hlen hfil
      exact ⟨hw, by rw [hd]; simp⟩
    · intro hlen hfil
      obtain ⟨hw, hd⟩ := hwin0 hlen hfil
      exact ⟨hw, by rw [hd]; simp⟩

/-- A second concrete player, already dead. -/
def pDeadW : Player :=
  { id := "p2", nickname := "Bob", x := 19, y := 19, color := "c", isAlive := false,
    bombsMax := 1, bombsPlaced := 0, explosionRadius := 2, speed := 1,
    direction := "down" }

/-- A concrete active two-player state with exactly one player alive. -/
def sVW : GameState :=
  { players := [p0W, pDeadW], bombs := [], explosions := [], powerUps := [],
    grid := List.replicate 21 (List.replicate 21 Tile.empty), winner := none,
    isGameOver := false, diffs := [] }

/-- The state one tick of `gameLoop` produces from `sVW`: game over, the sole
survivor's nickname as winner, and the `gameOver` diff queued. -/
def sVW' : GameState :=
  { sVW with isGameOver := true, winner := some "n", diffs := [Diff.gameOver "n"] }

/-- Witness for C4 (amended): one tick on `sVW` ends the round with the sole
survivor's nickname. -/
theorem c4_win_detection_witness :
    sVW.isGameOver = false ∧
    gameLoop (fun _ _ => none) 1 0 sVW = some sVW' ∧
    (sVW'.isGameOver = true ↔
      2 ≤ sVW'.players.length ∧
      (sVW'.players.filter (fun p => p.isAlive)).length ≤ 1) ∧
    sVW'.isGameOver = true := by
  refine ⟨rfl, by decide, ?_, rfl⟩
  exact (c4_win_detection (fun _ _ => none) 1 0 sVW sVW' rfl (by decide)).1

/-! ### C3: explosion propagation along one direction -/

/-- Modelled from the spec (§4.4 propagation bullets): the tiles a blast
gathers walking outward in direction (dx, dy) from (px, py) for up to `rem`
steps — an out-of-bounds or SOLID cell stops the walk and is never added, a
SOFT cell is added and stops the walk, an EMPTY cell is added and the walk
continues. -/
def specBlastTiles (g : List (List Tile)) (dx dy : Int) :
    Nat → Int → Int → List (Int × Int)
  | 0, _, _ => []
  | rem + 1, px, py =>
    let nx := px + dx
    let ny := py + dy
    if nx < 0 ∨ GRID_WIDTH ≤ nx ∨ ny < 0 ∨ GRID_HEIGHT ≤ ny then []
    else if getCell g nx ny = Tile.solid then []
    else if getCell g nx ny = Tile.soft then [(nx, ny)]
    else (nx, ny) :: specBlastTiles g dx dy rem nx ny

/-- Modelled from the spec: the first SOFT cell the walk meets in this
direction (the one converted to EMPTY exactly once), if any. -/
def specBlastSoft (g : List (List Tile)) (dx dy : Int) :
    Nat → Int → Int → Option (Int × Int)
  | 0, _, _ => none
  | rem + 1, px, py =>
    let nx := px + dx
    let ny := py + dy
    if nx < 0 ∨ GRID_WIDTH ≤ nx ∨ ny < 0 ∨ GRID_HEIGHT ≤ ny then none
    else if getCell g nx ny = Tile.solid then none
    else if getCell g nx ny = Tile.soft then some (nx, ny)
    else specBlastSoft g dx dy rem nx ny

/-- Claim C3: over a bomb-free state (chaining aside), one direction of the
source walk agrees exactly with the spec's description: the tile set gains
precisely the spec-walk tiles (stopping before OOB/SOLID, including the first
SOFT, continuing over EMPTY), and the state is unchanged unless a SOFT cell
was met, in which case exactly that cell is converted to EMPTY once, a
`tileChanged` diff is emitted and a power-up spawn is attempted there. -/
theorem c3_blast_walk (recur : GameState → Int → Int → String → Int → Option GameState)
    (spawnO : Int → Int → Option PowerUpType) (dx dy : Int) :
    ∀ (rem : Nat) (px py : Int) (st : GameState) (ts : List (Int × Int)),
      st.bombs = [] →
      walkDir recur spawnO dx dy rem px py st ts =
        some (match specBlastSoft st.grid dx dy rem px py with
              | none => st
              | some c => trySpawnPowerUp spawnO
                  (queueUpdate { st with grid := setCell st.grid c.1 c.2 Tile.empty }
                    (Diff.tileChanged c.1 c.2 Tile.empty)) c.1 c.2,
              (specBlastTiles st.grid dx dy rem px py).foldl addTile ts) := by
  intro rem
  induction rem with
  | zero =>
    intro px py st ts _
    rfl
  | succ rem ih =>
    intro px py st ts hb
    simp only [walkDir, specBlastTiles, specBlastSoft]
    by_cases hoob : px + dx < 0 ∨ GRID_WIDTH ≤ px + dx ∨ py + dy < 0 ∨
        GRID_HEIGHT ≤ py + dy
    · rw [if_pos hoob, if_pos hoob, if_pos hoob]
      rfl
    · rw [if_neg hoob, if_neg hoob, if_neg hoob]
      by_cases hsolid : getCell st.grid (px + dx) (py + dy) = Tile.solid
      · rw [if_pos hsolid, if_pos hsolid, if_pos hsolid]
        rfl
      · rw [if_neg hsolid, if_neg hsolid, if_neg hsolid]
        have hscan : bombScan recur (st.bombs.map (fun b => b.id)) st (px + dx)
            (py + dy) = some st := by
          rw [hb]
          rfl
        simp only [hscan]
        by_cases hsoft : getCell st.grid (px + dx) (py + dy) = Tile.soft
        · rw [if_pos hsoft, if_pos hsoft, if_pos hsoft]
          rfl
        · rw [if_neg hsoft, if_neg hsoft, if_neg hsoft]
          rw [ih (px + dx) (py + dy) st (addTile ts (px + dx, py + dy)) hb]
          rfl

/-- A concrete bomb-free state for the C3 witness: all-EMPTY grid with a SOFT
block at (3, 1). -/
def sBlastW : GameState :=
  { players := [], bombs := [], explosions := [], powerUps := [],
    grid := setCell (List.replicate 21 (List.replicate 21 Tile.empty)) 3 1 Tile.soft,
    winner := none, isGameOver := false, diffs := [] }

/-- Witness for C3: walking right from (1, 1) with 3 steps over `sBlastW`
gathers (2, 1) and the SOFT cell (3, 1), stops there, and the claim theorem
applies. -/
theorem c3_blast_walk_witness :
    sBlastW.bombs = [] ∧
    specBlastTiles sBlastW.grid 1 0 3 1 1 = [(2, 1), (3, 1)] ∧
    specBlastSoft sBlastW.grid 1 0 3 1 1 = some (3, 1) ∧
    walkDir (fun st _ _ _ _ => some st) (fun _ _ => none) 1 0 3 1 1 sBlastW
        [(1, 1)] =
      some (match specBlastSoft sBlastW.grid 1 0 3 1 1 with
            | none => sBlastW
            | some c => trySpawnPowerUp (fun _ _ => none)
                (queueUpdate { sBlastW with grid := setCell sBlastW.grid c.1 c.2 Tile.empty }
                  (Diff.tileChanged c.1 c.2 Tile.empty)) c.1 c.2,
            (specBlastTiles sBlastW.grid 1 0 3 1 1).foldl addTile [(1, 1)]) := by
  refine ⟨rfl, by decide, by decide, ?_⟩
  exact c3_blast_walk (fun st _ _ _ _ => some st) (fun _ _ => none) 1 0 3 1 1
    sBlastW [(1, 1)] rfl

/-! ### C8: spawn allocation beyond the corner slots -/

theorem distSq_nonneg (x1 y1 x2 y2 : Int) : 0 ≤ distSq x1 y1 x2 y2 :=
  add_nonneg (mul_self_nonneg _) (mul_self_nonneg _)

theorem minDistSq_nonneg (ps : List Player) (x y : Int) :
    0 ≤ minDistSqToPlayers ps x y := by
  cases ps with
  | nil => exact le_refl 0
  | cons p rest =>
    simp only [minDistSqToPlayers]
    have haux : ∀ (l : List Player) (acc : Int), 0 ≤ acc →
        0 ≤ l.foldl (fun m q => min m (distSq x y q.x q.y)) acc := by
      intro l
      induction l with
      | nil => intro acc h; exact h
      | cons q t ih => intro acc h; exact ih _ (le_min h (distSq_nonneg _ _ _ _))
    exact haux rest _ (distSq_nonneg _ _ _ _)

/-- When every EMPTY cell still to scan is no farther than the best so far,
the scan keeps the current best. -/
theorem findSpawnAux_all_le (s : GameState) (hne : s.players.isEmpty = false) :
    ∀ (cells : List (Int × Int)) (best : Int × Int) (maxD : Int),
      (∀ c ∈ cells, getCell s.grid c.1 c.2 = Tile.empty →
        minDistSqToPlayers s.players c.1 c.2 ≤ maxD) →
      findSpawnAux s cells best maxD = best := by
  intro cells
  induction cells with
  | nil => intro best maxD _; rfl
  | cons c cs ih =>
    intro best maxD hall
    simp only [findSpawnAux]
    by_cases he : getCell s.grid c.1 c.2 = Tile.empty
    · rw [if_pos he, if_neg (by rw [hne]; exact Bool.false_ne_true),
        if_neg (not_lt.mpr (hall c (List.mem_cons_self c cs) he))]
      exact ih best maxD (fun c' hc' he' => hall c' (List.mem_cons_of_mem c hc') he')
    · rw [if_neg he]
      exact ih best maxD (fun c' hc' he' => hall c' (List.mem_cons_of_mem c hc') he')

/-- The scan of `findSpawnAux` is a first-wins argmax: when some remaining
EMPTY cell strictly beats the incoming best distance, the result is an EMPTY
scanned cell strictly better than the incoming bound, every earlier EMPTY
cell is strictly worse, and every later EMPTY cell is no better. -/
theorem findSpawnAux_argmax (s : GameState) (hne : s.players.isEmpty = false) :
    ∀ (cells : List (Int × Int)) (best : Int × Int) (maxD : Int) (c0 : Int × Int),
      c0 ∈ cells → getCell s.grid c0.1 c0.2 = Tile.empty →
      maxD < minDistSqToPlayers s.players c0.1 c0.2 →
      ∃ l1 l2, cells = l1 ++ findSpawnAux s cells best maxD :: l2 ∧
        getCell s.grid (findSpawnAux s cells best maxD).1
          (findSpawnAux s cells best maxD).2 = Tile.empty ∧
        maxD < minDistSqToPlayers s.players (findSpawnAux s cells best maxD).1
          (findSpawnAux s cells best maxD).2 ∧
        (∀ c ∈ l1, getCell s.grid c.1 c.2 = Tile.empty →
          minDistSqToPlayers s.players c.1 c.2 <
            minDistSqToPlayers s.players (findSpawnAux s cells best maxD).1
              (findSpawnAux s cells best maxD).2) ∧
        (∀ c ∈ l2, getCell s.grid c.1 c.2 = Tile.empty →
          minDistSqToPlayers s.players c.1 c.2 ≤
            minDistSqToPlayers s.players (findSpawnAux s cells best maxD).1
              (findSpawnAux s cells best maxD).2) := by
  intro cells
  induction cells with
  | nil => intro best maxD c0 hc0; cases hc0
  | cons c cs ih =>
    intro best maxD c0 hc0 he0 hd0
    by_cases he : getCell s.grid c.1 c.2 = Tile.empty
    · by_cases hup : maxD < minDistSqToPlayers s.players c.1 c.2
      · have hred : findSpawnAux s (c :: cs) best maxD =
            findSpawnAux s cs c (minDistSqToPlayers s.players c.1 c.2) := by
          simp only [findSpawnAux]
          rw [if_pos he, if_neg (by rw [hne]; exact Bool.false_ne_true), if_pos hup]
        rw [hred]
        by_cases hbetter : ∃ c' ∈ cs, getCell s.grid c'.1 c'.2 = Tile.empty ∧
            minDistSqToPlayers s.players c.1 c.2 <
              minDistSqToPlayers s.players c'.1 c'.2
        · obtain ⟨c', hc', he', hd'⟩ := hbetter
          obtain ⟨l1, l2, hsplit, hre, hrd, hl1, hl2⟩ := ih c _ c' hc' he' hd'
          refine ⟨c :: l1, l2, by rw [List.cons_append, ← hsplit], hre,
            lt_trans hup hrd, ?_, hl2⟩
          intro cc hcc hce
          rcases List.mem_cons.mp hcc with hcc | hcc
          · subst hcc; exact hrd
          · exact hl1 cc hcc hce
        · push_neg at hbetter
          have hall : ∀ c' ∈ cs, getCell s.grid c'.1 c'.2 = Tile.empty →
              minDistSqToPlayers s.players c'.1 c'.2 ≤
                minDistSqToPlayers s.players c.1 c.2 := by
            intro c' hc' he'
            exact hbetter c' hc' he'
          rw [findSpawnAux_all_le s hne cs c _ hall]
          exact ⟨[], cs, rfl, he, hup, by simp, hall⟩
      · have hred : findSpawnAux s (c :: cs) best maxD = findSpawnAux s cs best maxD := by
          simp only [findSpawnAux]
          rw [if_pos he, if_neg (by rw [hne]; exact Bool.false_ne_true), if_neg hup]
        rw [hred]
        have hc0' : c0 ∈ cs := by
          rcases List.mem_cons.mp hc0 with hcc | hcc
          · exfalso; apply hup; rw [← hcc] at *; exact hd0
          · exact hcc
        obtain ⟨l1, l2, hsplit, hre, hrd, hl1, hl2⟩ := ih best maxD c0 hc0' he0 hd0
        refine ⟨c :: l1, l2, by rw [List.cons_append, ← hsplit], hre, hrd, ?_, hl2⟩
        intro cc hcc hce
        rcases List.mem_cons.mp hcc with hcc | hcc
        · subst hcc; exact lt_of_le_of_lt (not_lt.mp hup) hrd
        · exact hl1 cc hcc hce
    · have hred : findSpawnAux s (c :: cs) best maxD = findSpawnAux s cs best maxD := by
        simp only [findSpawnAux]
        rw [if_neg he]
      rw [hred]
      have hc0' : c0 ∈ cs := by
        rcases List.mem_cons.mp hc0 with hcc | hcc
        · exfalso; apply he; rw [← hcc]; exact he0
        · exact hcc
      obtain ⟨l1, l2, hsplit, hre, hrd, hl1, hl2⟩ := ih best maxD c0 hc0' he0 hd0
      refine ⟨c :: l1, l2, by rw [List.cons_append, ← hsplit], hre, hrd, ?_, hl2⟩
      intro cc hcc hce
      rcases List.mem_cons.mp hcc with hcc | hcc
      · subst hcc; exact absurd hce he
      · exact hl1 cc hcc hce

/-- With no registered player at all, the scan returns the first EMPTY cell
(or the (-1, -1) sentinel when none exists). -/
theorem findSpawnAux_no_players (s : GameState) (hnil : s.players = []) :
    ∀ (cells : List (Int × Int)) (best : Int × Int) (maxD : Int),
      findSpawnAux s cells best maxD =
        (cells.find? (fun c => getCell s.grid c.1 c.2 == Tile.empty)).getD best := by
  intro cells
  induction cells with
  | nil => intro best maxD; rfl
  | cons c cs ih =>
    intro best maxD
    simp only [findSpawnAux, List.find?_cons]
    by_cases he : getCell s.grid c.1 c.2 = Tile.empty
    · rw [if_pos he, if_pos (by rw [hnil]; rfl),
        (by simpa using he : (getCell s.grid c.1 c.2 == Tile.empty) = true)]
      rfl
    · rw [if_neg he, (by simpa using he : (getCell s.grid c.1 c.2 == Tile.empty) = false)]
      exact ih best maxD

/-- Claim C8 amended: for join indices beyond the corner slots, the scan
maximizes the minimum squared Euclidean distance to *every currently
registered player — dead or alive* (not only the alive ones), over all EMPTY
interior cells in row-major order, first cell winning ties; with no
registered player it returns the first EMPTY interior cell. -/
theorem c8_spawn_allocation (s : GameState) (i : Nat) (hi : 4 ≤ i) :
    (s.players = [] →
      findSpawnPoint s i =
        (spawnCells.find? (fun c => getCell s.grid c.1 c.2 == Tile.empty)).getD
          (-1, -1)) ∧
    (s.players ≠ [] →
      ∀ c0 ∈ spawnCells, getCell s.grid c0.1 c0.2 = Tile.empty →
      ∃ l1 l2, spawnCells = l1 ++ findSpawnPoint s i :: l2 ∧
        getCell s.grid (findSpawnPoint s i).1 (findSpawnPoint s i).2 = Tile.empty ∧
        (∀ c ∈ l1, getCell s.grid c.1 c.2 = Tile.empty →
          minDistSqToPlayers s.players c.1 c.2 <
            minDistSqToPlayers s.players (findSpawnPoint s i).1
              (findSpawnPoint s i).2) ∧
        (∀ c ∈ l2, getCell s.grid c.1 c.2 = Tile.empty →
          minDistSqToPlayers s.players c.1 c.2 ≤
            minDistSqToPlayers s.players (findSpawnPoint s i).1
              (findSpawnPoint s i).2)) := by
  have hfs : findSpawnPoint s i = findSpawnAux s spawnCells (-1, -1) (-1) := by
    unfold findSpawnPoint
    rw [if_neg (by omega)]
  constructor
  · intro hnil
    rw [hfs]
    exact findSpawnAux_no_players s hnil spawnCells (-1, -1) (-1)
  · intro hne c0 hc0 he0
    have hne' : s.players.isEmpty = false := by
      cases hp : s.players with
      | nil => exact absurd hp hne
      | cons a l => rfl
    have hd0 : (-1 : Int) < minDistSqToPlayers s.players c0.1 c0.2 :=
      lt_of_lt_of_le (by norm_num) (minDistSq_nonneg s.players c0.1 c0.2)
    rw [hfs]
    obtain ⟨l1, l2, hsplit, hre, _, hl1, hl2⟩ :=
      findSpawnAux_argmax s hne' spawnCells (-1, -1) (-1) c0 hc0 he0 hd0
    exact ⟨l1, l2, hsplit, hre, hl1, hl2⟩

/-- Modelled from the claim (and spec §4.2): the same scan, but measuring the
minimum distance only to *currently-alive* players — the state with dead
players filtered out is handed to the scan. -/
def claimFindSpawnPoint (s : GameState) (playerIndex : Nat) : Int × Int :=
  if playerIndex < 4 then PLAYER_SPAWNS.getD playerIndex (0, 0)
  else
    findSpawnAux { s with players := s.players.filter (fun p => p.isAlive) }
      spawnCells (-1, -1) (-1)

/-- A concrete dead player at (1, 1). -/
def pDeadC8 : Player :=
  { id := "d", nickname := "Dead", x := 1, y := 1, color := "c", isAlive := false,
    bombsMax := 1, bombsPlaced := 0, explosionRadius := 2, speed := 1,
    direction := "down" }

/-- A concrete state with a single *dead* player at (1, 1) on an all-EMPTY
grid. -/
def sC8 : GameState :=
  { players := [pDeadC8], bombs := [], explosions := [], powerUps := [],
    grid := List.replicate 21 (List.replicate 21 Tile.empty), winner := none,
    isGameOver := false, diffs := [] }

set_option maxRecDepth 4000 in
/-- Counterexample to C8 as stated: with only a dead player registered, the
code still measures distance to it (`Object.values(this.players)` is not
filtered by `isAlive`) and returns the far corner (19, 19); the claim's
alive-only scan would find no player and return the first EMPTY cell
(1, 1). -/
theorem c8_counterexample :
    findSpawnPoint sC8 4 = (19, 19) ∧
    claimFindSpawnPoint sC8 4 = (1, 1) ∧
    ((19, 19) : Int × Int) ≠ (1, 1) := by decide

/-- Witness for C8 (amended): in `sC8` the registered (dead) player governs
the max-min scan. -/
theorem c8_spawn_allocation_witness :
    4 ≤ 4 ∧ sC8.players ≠ [] ∧ ((1, 1) : Int × Int) ∈ spawnCells ∧
    getCell sC8.grid 1 1 = Tile.empty ∧
    (∃ l1 l2, spawnCells = l1 ++ findSpawnPoint sC8 4 :: l2 ∧
      getCell sC8.grid (findSpawnPoint sC8 4).1 (findSpawnPoint sC8 4).2 =
        Tile.empty ∧
      (∀ c ∈ l1, getCell sC8.grid c.1 c.2 = Tile.empty →
        minDistSqToPlayers sC8.players c.1 c.2 <
          minDistSqToPlayers sC8.players (findSpawnPoint sC8 4).1
            (findSpawnPoint sC8 4).2) ∧
      (∀ c ∈ l2, getCell sC8.grid c.1 c.2 = Tile.empty →
        minDistSqToPlayers sC8.players c.1 c.2 ≤
          minDistSqToPlayers sC8.players (findSpawnPoint sC8 4).1
            (findSpawnPoint sC8 4).2)) := by
  refine ⟨le_refl 4, by decide, by decide, by decide, ?_⟩
  exact (c8_spawn_allocation sC8 4 (le_refl 4)).2 (by decide) (1, 1) (by decide)
    (by decide)

/-! ### C10: at most one power-up per cell in every reachable state -/

/-- The power-up store invariant: keys are pairwise distinct (JS object), and
every stored entry's key is the `powerup-x-y` string derived from its own
coordinates. -/
def puListInv (l : List PowerUp) : Prop :=
  l.Pairwise (fun a b => a.id ≠ b.id) ∧ ∀ pu ∈ l, pu.id = powerUpId pu.x pu.y

def powerUpInv (s : GameState) : Prop := puListInv s.powerUps

theorem puListInv_putBy (l : List PowerUp) (pu : PowerUp) (hinv : puListInv l)
    (hid : pu.id = powerUpId pu.x pu.y) : puListInv (putBy PowerUp.id l pu) := by
  obtain ⟨hpw, hco⟩ := hinv
  unfold putBy
  by_cases h : l.any (fun b => b.id == pu.id) = true
  · rw [if_pos h]
    have hfid : ∀ a : PowerUp, (if (a.id == pu.id) = true then pu else a).id = a.id := by
      intro a
      by_cases ha : (a.id == pu.id) = true
      · rw [if_pos ha]
        exact (beq_iff_eq.mp ha).symm
      · rw [if_neg ha]
    constructor
    · exact hpw.map _ (fun a b hab => by
        show (if (a.id == pu.id) = true then pu else a).id ≠
          (if (b.id == pu.id) = true then pu else b).id
        rw [hfid, hfid]; exact hab)
    · intro q hq
      obtain ⟨a, ha, rfl⟩ := List.mem_map.mp hq
      by_cases hb : (a.id == pu.id) = true
      · rw [if_pos hb]
        exact hid
      · rw [if_neg hb]
        exact hco a ha
  · rw [if_neg h]
    have hnotin : ∀ b ∈ l, ¬ (b.id == pu.id) = true :=
      List.any_eq_false.mp (eq_false_of_ne_true h)
    constructor
    · apply List.pairwise_append.mpr
      refine ⟨hpw, List.pairwise_singleton _ _, ?_⟩
      intro a ha b hb
      simp only [List.mem_singleton] at hb
      subst hb
      intro heq
      exact hnotin a ha (by rw [heq]; simp)
    · intro q hq
      rcases List.mem_append.mp hq with hq | hq
      · exact hco q hq
      · simp only [List.mem_singleton] at hq
        subst hq
        exact hid

theorem puListInv_eraseP (l : List PowerUp) (q : PowerUp → Bool)
    (h : puListInv l) : puListInv (l.eraseP q) :=
  ⟨h.1.sublist (List.eraseP_sublist l),
   fun pu hpu => h.2 pu ((List.eraseP_sublist l).subset hpu)⟩

theorem powerUpInv_trySpawn (spawnO : Int → Int → Option PowerUpType)
    (s : GameState) (x y : Int) (h : powerUpInv s) :
    powerUpInv (trySpawnPowerUp spawnO s x y) := by
  unfold trySpawnPowerUp
  split
  · exact h
  · exact puListInv_putBy s.powerUps _ h rfl

theorem powerUpInv_checkPU (s : GameState) (pid : String) (h : powerUpInv s) :
    powerUpInv (checkPowerUpCollision s pid) := by
  unfold checkPowerUpCollision
  split
  · exact h
  · split
    · exact h
    · exact puListInv_eraseP s.powerUps _ h

/-- The power-up invariant is stable through the explosion engine. -/
theorem puStable : CEStable powerUpInv :=
  { qu := fun _ _ hp => hp
    up := fun _ _ _ hp => hp
    gr := fun _ _ hp => hp
    bo := fun _ _ hp => hp
    ex := fun _ _ hp => hp
    sp := fun spawnO s x y hp => powerUpInv_trySpawn spawnO s x y hp }

theorem powerUpInv_movePlayer (s : GameState) (id dir : String)
    (h : powerUpInv s) : powerUpInv (movePlayer s id dir) := by
  unfold movePlayer
  dsimp only
  split
  · exact h
  · split
    · exact h
    · split
      · exact h
      · split
        · exact powerUpInv_checkPU _ _ h
        · exact h

theorem powerUpInv_placeBomb (s : GameState) (pid : String) (now : Int)
    (h : powerUpInv s) : powerUpInv (placeBomb s pid now) := by
  unfold placeBomb
  dsimp only
  split
  · exact h
  · split
    · exact h
    · split
      · exact h
      · exact h

theorem powerUpInv_addPlayer (s : GameState) (id : String) (nick : Option String)
    (h : powerUpInv s) : powerUpInv (addPlayer s id nick).1 := by
  unfold addPlayer
  dsimp only
  split
  · exact h
  · exact h

theorem powerUpInv_removePlayer (s : GameState) (id : String)
    (h : powerUpInv s) : powerUpInv (removePlayer s id) := h

theorem powerUpInv_checkForWinner (s : GameState) (h : powerUpInv s) :
    powerUpInv (checkForWinner s) := by
  unfold checkForWinner
  dsimp only
  split
  · exact h
  · split
    · exact h
    · exact h

theorem respawnPlayers_powerUps :
    ∀ (lst : List (Nat × Player)) (st : GameState),
      (respawnPlayers lst st).powerUps = st.powerUps := by
  intro lst
  induction lst with
  | nil => intro st; rfl
  | cons ip rest ih =>
    intro st
    cases ip with
    | mk i p => exact ih _

theorem powerUpInv_reset (rand : Int → Int → Bool) (s : GameState) :
    powerUpInv (reset rand s) := by
  unfold reset powerUpInv
  show puListInv (respawnPlayers _ _).powerUps
  rw [respawnPlayers_powerUps]
  exact ⟨List.Pairwise.nil, by simp⟩

theorem powerUpInv_gameLoop (spawnO : Int → Int → Option PowerUpType)
    (fuel : Nat) (now : Int) (s s' : GameState) (h : powerUpInv s)
    (hg : gameLoop spawnO fuel now s = some s') : powerUpInv s' := by
  unfold gameLoop at hg
  split at hg
  · cases hg; exact h
  · split at hg
    · simp at hg
    · rename_i ub hub
      cases hg
      exact powerUpInv_checkForWinner _
        (updateExplosions_stable powerUpInv (fun _ _ hp => hp) (fun _ _ _ hp => hp)
          (fun _ _ hp => hp) now ub
          (updateBombs_stable powerUpInv puStable spawnO fuel now s ub h hub))

/-- The externally reachable states of the game core: the constructor state,
closed under join/leave/move/bomb intents, simulation ticks, round resets and
diff-buffer flushes. -/
inductive Reachable : GameState → Prop
  | init : Reachable GameState.new
  | join (s : GameState) (id : String) (nick : Option String) :
      Reachable s → Reachable (addPlayer s id nick).1
  | leave (s : GameState) (id : String) : Reachable s → Reachable (removePlayer s id)
  | move (s : GameState) (id dir : String) : Reachable s → Reachable (movePlayer s id dir)
  | bomb (s : GameState) (id : String) (now : Int) :
      Reachable s → Reachable (placeBomb s id now)
  | tick (s s' : GameState) (spawnO : Int → Int → Option PowerUpType) (fuel : Nat)
      (now : Int) : Reachable s → gameLoop spawnO fuel now s = some s' → Reachable s'
  | doReset (s : GameState) (rand : Int → Int → Bool) :
      Reachable s → Reachable (reset rand s)
  | flush (s : GameState) : Reachable s → Reachable { s with diffs := [] }

theorem powerUpInv_reachable (s : GameState) (h : Reachable s) : powerUpInv s := by
  induction h with
  | init => exact ⟨List.Pairwise.nil, fun pu hpu => nomatch hpu⟩
  | join s id nick _ ih => exact powerUpInv_addPlayer s id nick ih
  | leave s id _ ih => exact powerUpInv_removePlayer s id ih
  | move s id dir _ ih => exact powerUpInv_movePlayer s id dir ih
  | bomb s id now _ ih => exact powerUpInv_placeBomb s id now ih
  | tick s s' spawnO fuel now _ hg ih => exact powerUpInv_gameLoop spawnO fuel now s s' ih hg
  | doReset s rand _ _ => exact powerUpInv_reset rand s
  | flush s _ ih => exact ih

/-- Claim C10: in every reachable state each grid cell holds at most one
power-up — the identifier is derived solely from the coordinates, so a spawn
on an occupied cell replaces the entry under the same key, and collection
removes exactly that entry (`eraseP` by that key). -/
theorem c10_powerup_per_cell (s : GameState) (h : Reachable s) (x y : Int) :
    (s.powerUps.filter (fun p => p.x == x && p.y == y)).length ≤ 1 := by
  have hinv := powerUpInv_reachable s h
  cases hf : s.powerUps.filter (fun p => p.x == x && p.y == y) with
  | nil => simp
  | cons a t =>
    cases t with
    | nil => simp
    | cons b t2 =>
      exfalso
      have hpw : (a :: b :: t2).Pairwise (fun a b => a.id ≠ b.id) := by
        rw [← hf]
        exact hinv.1.filter _
      have hab : a.id ≠ b.id := (List.pairwise_cons.mp hpw).1 b (by simp)
      have hamem : a ∈ s.powerUps.filter (fun p => p.x == x && p.y == y) := by
        rw [hf]; simp
      have hbmem : b ∈ s.powerUps.filter (fun p => p.x == x && p.y == y) := by
        rw [hf]; simp
      obtain ⟨hal, hap⟩ := List.mem_filter.mp hamem
      obtain ⟨hbl, hbp⟩ := List.mem_filter.mp hbmem
      have hax : a.x = x ∧ a.y = y := by
        constructor <;> [exact beq_iff_eq.mp (Bool.and_elim_left hap);
          exact beq_iff_eq.mp (Bool.and_elim_right hap)]
      have hbx : b.x = x ∧ b.y = y := by
        constructor <;> [exact beq_iff_eq.mp (Bool.and_elim_left hbp);
          exact beq_iff_eq.mp (Bool.and_elim_right hbp)]
      apply hab
      rw [hinv.2 a hal, hinv.2 b hbl, hax.1, hax.2, hbx.1, hbx.2]

/-- Witness for C10: the constructor state is reachable and satisfies the
per-cell bound. -/
theorem c10_powerup_per_cell_witness :
    Reachable GameState.new ∧
    (GameState.new.powerUps.filter (fun p => p.x == 0 && p.y == 0)).length ≤ 1 :=
  ⟨Reachable.init, c10_powerup_per_cell GameState.new Reachable.init 0 0⟩

/-! ### C1: chain detonation ordering and (non-)termination

The source's chain-reaction loop (server.js lines 259-265) recursively calls
`createExplosion` on a chained bomb *before* `delete this.bombs[bombId]`, so
the chained bomb — and every bomb on the pending chain — is still in the live
bomb set while its own detonation runs.  With two live bombs in range of each
other, triggered by a third, the two re-detonate each other forever.  The
fuel-bounded embedding exhibits this as fuel exhaustion at *every* fuel. -/

/-- A 21×21 grid, all SOLID except the four cells (1,1), (1,2), (2,1), (2,2),
which are EMPTY. -/
def gridC1 : List (List Tile) :=
  setCell (setCell (setCell (setCell (List.replicate 21 (List.replicate 21 Tile.solid))
    1 1 Tile.empty) 1 2 Tile.empty) 2 1 Tile.empty) 2 2 Tile.empty

/-- The timer-expired trigger bomb at (2, 1). -/
def bombA : Bomb :=
  { id := "A", x := 2, y := 1, ownerId := "pA", timer := 1000, radius := 2 }

/-- A live bomb at (1, 1), in range of `bombC` below it. -/
def bombB : Bomb :=
  { id := "B", x := 1, y := 1, ownerId := "pB", timer := 9999, radius := 2 }

/-- A live bomb at (1, 2), in range of `bombB` above it. -/
def bombC : Bomb :=
  { id := "C", x := 1, y := 2, ownerId := "pC", timer := 9999, radius := 2 }

/-- The failing input: three bombs on `gridC1`; `bombA`'s deadline has elapsed
at time 1000, `bombB` and `bombC` are live and mutually in range. -/
def sC1 : GameState :=
  { players := [], bombs := [bombA, bombB, bombC], explosions := [], powerUps := [],
    grid := gridC1, winner := none, isGameOver := false, diffs := [] }

/-- The state after `updateBombs` has collected and deleted the expired
`bombA`: only `bombB` and `bombC` remain. -/
def sBC : GameState := { sC1 with bombs := [bombB, bombC] }

/-- A power-up oracle that never spawns (no SOFT tile is ever hit here). -/
def noSpawn : Int → Int → Option PowerUpType := fun _ _ => none

theorem hbombsBC : sBC.bombs = [bombB, bombC] := rfl

theorem hgridBC : sBC.grid = gridC1 := rfl

theorem g11 : getCell gridC1 1 1 = Tile.empty := by decide

theorem g12 : getCell gridC1 1 2 = Tile.empty := by decide

theorem g13 : getCell gridC1 1 3 = Tile.solid := by decide

theorem g22 : getCell gridC1 2 2 = Tile.empty := by decide

theorem g23 : getCell gridC1 2 3 = Tile.solid := by decide

theorem g20 : getCell gridC1 2 0 = Tile.solid := by decide

theorem g31 : getCell gridC1 3 1 = Tile.solid := by decide

/-- Detonating `bombB` at (1, 1): its first walk direction (down) immediately
finds the still-live `bombC` at (1, 2) and recurses into it on the *unchanged*
state (no deletion has happened yet), so `bombB`'s detonation needs strictly
more fuel than `bombC`'s. -/
theorem ceB_step (f : Nat)
    (hC : createExplosion noSpawn f sBC 1 2 "pC" 2 1000 = none) :
    createExplosion noSpawn (f + 1) sBC 1 1 "pB" 2 1000 = none := by
  simp [createExplosion, DIRECTIONS, walkDirs, walkDir, bombScan, hbombsBC,
    hgridBC, g11, g12, g13, bombB, bombC, addTile, hC, GRID_WIDTH, GRID_HEIGHT,
    List.find?]

/-- Detonating `bombC` at (1, 2): the downward walk stops at the SOLID (1, 3),
then the upward walk finds the still-live `bombB` at (1, 1) and recurses into
it on the unchanged state. -/
theorem ceC_step (f : Nat)
    (hB : createExplosion noSpawn f sBC 1 1 "pB" 2 1000 = none) :
    createExplosion noSpawn (f + 1) sBC 1 2 "pC" 2 1000 = none := by
  simp [createExplosion, DIRECTIONS, walkDirs, walkDir, bombScan, hbombsBC,
    hgridBC, g11, g12, g13, bombB, bombC, addTile, hB, GRID_WIDTH, GRID_HEIGHT,
    List.find?]

/-- `bombB` and `bombC` re-trigger each other forever: neither detonation
completes at any fuel. -/
theorem ceBC_none : ∀ f : Nat,
    createExplosion noSpawn f sBC 1 1 "pB" 2 1000 = none ∧
    createExplosion noSpawn f sBC 1 2 "pC" 2 1000 = none := by
  intro f
  induction f with
  | zero => exact ⟨rfl, rfl⟩
  | succ f ih => exact ⟨ceB_step f ih.2, ceC_step f ih.1⟩

/-- The trigger: `bombA`'s explosion (walking down, up, right, then left)
reaches `bombB` at (1, 1) and recurses into the divergent pair. -/
theorem ceA_step (f : Nat)
    (hB : createExplosion noSpawn f sBC 1 1 "pB" 2 1000 = none) :
    createExplosion noSpawn (f + 1) sBC 2 1 "pA" 2 1000 = none := by
  simp [createExplosion, DIRECTIONS, walkDirs, walkDir, bombScan, hbombsBC,
    hgridBC, g11, g12, g13, g22, g23, g20, g31, bombB, bombC, addTile, hB,
    GRID_WIDTH, GRID_HEIGHT, List.find?]

theorem updateBombs_sC1 (f : Nat)
    (hA : createExplosion noSpawn f sBC 2 1 "pA" 2 1000 = none) :
    updateBombs noSpawn f 1000 sC1 = none := by
  unfold updateBombs
  have hexp : sC1.bombs.filter (fun b => b.timer ≤ 1000) = [bombA] := by decide
  have hfil : sC1.bombs.filter (fun b => !(b.timer ≤ 1000)) = [bombB, bombC] := by
    decide
  rw [hexp, hfil]
  simp [detonateList, bombA,
    (show ({ sC1 with bombs := [bombB, bombC] } : GameState) = sBC from rfl), hA]

/-- Claim C1, settled against the code as a bug: the tick that detonates the
expired `bombA` of `sC1` never completes, at any fuel bound — the source
recursively invokes the chained detonation *before* removing the chained bomb
from the live set, so the two mutually-in-range bombs `bombB` and `bombC`
re-detonate each other without end (a stack overflow in the real program),
contradicting the remove-before-recurse rule and the termination the claim
(and the spec's own rationale) state. -/
theorem c1_chain_nontermination : ∀ f : Nat, updateBombs noSpawn f 1000 sC1 = none := by
  intro f
  cases f with
  | zero => rfl
  | succ f => exact updateBombs_sC1 (f + 1) (ceA_step f (ceBC_none f).1)

end BombGame
